import Mathlib

/-!
Shallow embedding of the attachment-intake component of the waste-report
backend: `app/core/file_upload.py` (the `FileUploadService` class and its
module constants) and the photo-handling blocks of
`app/api/v1/waste_reports/router.py` (`create_waste_report`,
`update_waste_report`), together with
`WastePhotoRepository.create_multiple` from
`app/db/repositories/waste_report.py`.

Modelling conventions:
* Bytes are `List Nat`.
* The filesystem is an explicit state `FS`: a list of created directories, a
  map from path strings to file contents, and two fault-injection lists
  (`unlinkFails`, `openFails`) naming the paths at which `Path.unlink()` or
  `open(path, "wb")` raises `OSError`.  Threading the state explicitly keeps
  the partial writes that precede an exception, exactly as on a real disk.
* `uuid.uuid4()` is modelled by a counter `uuidCtr` threaded through `FS`;
  `uuidStr` is injective and produces no `.` or `/` characters, which is the
  only property of the random identifier the code relies on.
* Exceptions are the `PyErr` type; `Except PyErr` results model Python
  `raise`/`try`/`except`.  `fastapi.HTTPException` values are every
  constructor except `osError` (the class of errors raised by filesystem
  calls), mirroring the source's `except HTTPException` / `except Exception`
  dispatch.
* Python string operations used by the source (`pathlib.Path(...).suffix`,
  `str.lower`, truthiness of optional strings) are implemented structurally
  over `String.data` so that every definition evaluates inside the kernel.
-/

deriving instance DecidableEq for Except

namespace WasteUpload

abbrev Bytes := List Nat

/-- `UPLOAD_DIR` from file_upload.py line 8. -/
def UPLOAD_DIR : String := "uploads/waste-reports"

/-- `ALLOWED_EXTENSIONS` from file_upload.py line 9 (a Python set; modelled as
a list, membership is all the source uses). -/
def ALLOWED_EXTENSIONS : List String := [".jpg", ".jpeg", ".png"]

/-- `MAX_FILE_SIZE = 5 * 1024 * 1024` from file_upload.py line 10. -/
def MAX_FILE_SIZE : Nat := 5 * 1024 * 1024

/-- `MAX_FILES_PER_REPORT` from file_upload.py line 11. -/
def MAX_FILES_PER_REPORT : Nat := 10

/-- `ALLOWED_MIME_TYPES` from file_upload.py line 12. -/
def ALLOWED_MIME_TYPES : List String := ["image/jpeg", "image/png"]

/-- The JPEG signature checked at file_upload.py line 71. -/
def JPEG_SIG : Bytes := [0xff, 0xd8, 0xff]

/-- The PNG signature checked at file_upload.py line 74. -/
def PNG_SIG : Bytes := [0x89, 0x50, 0x4e, 0x47, 0x0d, 0x0a, 0x1a, 0x0a]

/-- Python truthiness of an optional string: `None` and `""` are falsy. -/
def truthy : Option String → Bool
  | none => false
  | some s => s != ""

/-- Split a character list at every occurrence of `sep` (Python
`str.split(sep)` shape: n separators give n+1 segments). -/
def splitOnChar (sep : Char) : List Char → List (List Char)
  | [] => [[]]
  | c :: rest =>
    let r := splitOnChar sep rest
    if c = sep then [] :: r
    else
      match r with
      | s :: rs => (c :: s) :: rs
      | [] => [[c]]

/-- `PurePosixPath(s).name`: the last nonempty `/`-separated component
(empty when there is none). -/
def pyName (s : String) : List Char :=
  ((splitOnChar '/' s.data).filter (fun seg => !seg.isEmpty)).getLastD []

/-- `PurePosixPath(s).suffix`: with `i` the index of the last `.` of the
final component, the characters from `i` on when `0 < i < len - 1`, else
empty (so dotless names, names that start with their only dot, and names
that end in a dot have no suffix). -/
def pySuffix (s : String) : String :=
  let name := pyName s
  if name.contains '.' then
    let after := name.reverse.takeWhile (fun c => c != '.')
    if 1 ≤ after.length ∧ after.length + 1 < name.length then
      String.mk ('.' :: after.reverse)
    else ""
  else ""

/-- Python `str.lower()`, per character (the source only lowercases filename
extensions, which are ASCII). -/
def pyLower (s : String) : String := String.mk (s.data.map Char.toLower)

/-- The exceptions the embedded code can raise.  All constructors except
`osError` model `fastapi.HTTPException` values, one per raise site;
`osError p` models an `OSError` from a filesystem call on path `p`
(injected through `FS.unlinkFails` / `FS.openFails`). -/
inductive PyErr where
  /-- HTTPException(400, "Maximum 10 files allowed per report"), line 163. -/
  | tooManyFiles
  /-- HTTPException(413, "File size exceeds maximum allowed size of 5MB"),
  raised identically at lines 25 (declared size) and 132 (actual bytes). -/
  | sizeExceeded
  /-- HTTPException(400, "File type '<ext>' not allowed. ..."), line 34. -/
  | unsupportedExtension (ext : String)
  /-- HTTPException(400, "MIME type '<ct>' not allowed"), line 41. -/
  | unsupportedMediaType (ct : Option String)
  /-- HTTPException(400, "File was not saved properly"), line 51. -/
  | notSavedProperly
  /-- HTTPException(400, "File is empty"), line 58. -/
  | emptyFile
  /-- HTTPException(400, "Invalid image file format"), line 78. -/
  | invalidImageContent
  /-- HTTPException(400, "Invalid image file"), line 92. -/
  | invalidImage
  /-- HTTPException(500, "Failed to save file"), line 154. -/
  | storageWriteFailed
  /-- HTTPException(404, "Waste report not found"), router.py line 203. -/
  | notFound
  /-- An `OSError` raised by a filesystem call on `path`. -/
  | osError (path : String)
deriving Repr, DecidableEq

/-- Whether the exception is a `fastapi.HTTPException` (matters for the
`except HTTPException` vs `except Exception` dispatch in the source). -/
def PyErr.isHTTPException : PyErr → Bool
  | .osError _ => false
  | _ => true

/-- The `status_code` of each `HTTPException` raise site (0 for `OSError`,
which carries none). -/
def PyErr.statusCode : PyErr → Nat
  | .tooManyFiles => 400
  | .sizeExceeded => 413
  | .unsupportedExtension _ => 400
  | .unsupportedMediaType _ => 400
  | .notSavedProperly => 400
  | .emptyFile => 400
  | .invalidImageContent => 400
  | .invalidImage => 400
  | .storageWriteFailed => 500
  | .notFound => 404
  | .osError _ => 0

/-- The filesystem state threaded through the service: created directories,
file contents by path, the fault-injection lists, and the `uuid.uuid4()`
counter. -/
structure FS where
  dirs : List String
  files : List (String × Bytes)
  unlinkFails : List String
  openFails : List String
  uuidCtr : Nat
deriving Repr, DecidableEq

/-- `Path(p).exists()` for a file path. -/
def FS.fileExists (fs : FS) (p : String) : Bool :=
  fs.files.any (fun kv => kv.1 == p)

/-- The bytes stored at `p` (`[]` when absent); `open(p, 'rb').read` /
`Path(p).stat().st_size` read from this. -/
def FS.readBytes (fs : FS) (p : String) : Bytes :=
  match fs.files.find? (fun kv => kv.1 == p) with
  | some kv => kv.2
  | none => []

/-- Store bytes at `p`, replacing any previous content. -/
def FS.writeFile (fs : FS) (p : String) (b : Bytes) : FS :=
  { fs with files := fs.files.filter (fun kv => kv.1 != p) ++ [(p, b)] }

/-- Remove the file at `p` from the map. -/
def FS.removeFile (fs : FS) (p : String) : FS :=
  { fs with files := fs.files.filter (fun kv => kv.1 != p) }

/-- `Path(p).unlink()`: removes the file, except that on the injected fault
paths it raises `OSError` and leaves the state unchanged. -/
def FS.unlink (fs : FS) (p : String) : Except PyErr FS :=
  if fs.unlinkFails.contains p then .error (.osError p) else .ok (fs.removeFile p)

/-- `Path(d).mkdir(parents=True, exist_ok=True)` for the flat directory
names this code creates: record `d` as existing, idempotently. -/
def FS.mkdirP (fs : FS) (d : String) : FS :=
  if fs.dirs.contains d then fs else { fs with dirs := fs.dirs ++ [d] }

/-- A `fastapi.UploadFile` as the service sees it: declared filename,
declared content-type, the optional `size` attribute (`none` models the
attribute being unavailable, in which case the source's `hasattr` guard
skips the declared-size check), and the bytes `await file.read()` yields. -/
structure UploadFile where
  filename : Option String
  content_type : Option String
  size : Option Nat
  content : Bytes
deriving Repr, DecidableEq

/-- Models `uuid.uuid4()` as the `uuidCtr`-th fresh identifier.  The code
relies only on the identifier being collision-free (modelled by injectivity
in the counter) and containing no `.` or `/`; the concrete spelling is
immaterial. -/
def uuidStr (n : Nat) : String :=
  String.mk ('u' :: List.replicate n 'u')

/-- `FileUploadService.generate_unique_filename` (lines 97–104): substitute
`"unnamed.jpg"` for a falsy filename, then uuid + lowercased suffix of the
original name (the original base name is discarded).  The fresh counter
value stands for the `uuid.uuid4()` draw. -/
def generate_unique_filename (original_filename : Option String) (uuidDraw : Nat) : String :=
  let name := if truthy original_filename then original_filename.getD "" else "unnamed.jpg"
  let ext := pyLower (pySuffix name)
  uuidStr uuidDraw ++ ext

/-- Python `file.content_type in ALLOWED_MIME_TYPES`: a `None` content-type
is not a member of a set of strings, so it is rejected by the MIME check. -/
def mimeAllowed : Option String → Bool
  | some ct => ALLOWED_MIME_TYPES.contains ct
  | none => false

/-- `FileUploadService.validate_file` (lines 20–44): declared-size check
(`file.size.getD 0` renders the `hasattr` guard: an unavailable size skips
the check), extension check (skipped for a falsy filename), MIME check.
Pure: performs no filesystem access. -/
def validate_file (file : UploadFile) : Except PyErr Unit :=
  if file.size.getD 0 > MAX_FILE_SIZE then .error PyErr.sizeExceeded
  else if truthy file.filename
      && !ALLOWED_EXTENSIONS.contains (pyLower (pySuffix (file.filename.getD ""))) then
    .error (PyErr.unsupportedExtension (pyLower (pySuffix (file.filename.getD ""))))
  else if !mimeAllowed file.content_type then
    .error (PyErr.unsupportedMediaType file.content_type)
  else .ok ()

/-- Whether a 10-byte header starts with the JPEG signature `FF D8 FF` or
the PNG signature `89 50 4E 47 0D 0A 1A 0A` (lines 68–75). -/
def hasImageSig (header : Bytes) : Bool :=
  JPEG_SIG.isPrefixOf header || PNG_SIG.isPrefixOf header

/-- The `try` body of `FileUploadService.validate_file_content`
(lines 48–81): existence check, emptiness check, then the 10-byte header
must carry a known image signature. -/
def validate_file_content_try (fs : FS) (file_path : String) : Except PyErr Unit :=
  if !fs.fileExists file_path then .error PyErr.notSavedProperly
  else if (fs.readBytes file_path).length = 0 then .error PyErr.emptyFile
  else if !hasImageSig ((fs.readBytes file_path).take 10) then
    .error PyErr.invalidImageContent
  else .ok ()

/-- `FileUploadService.validate_file_content` (lines 46–95): the `try` body
with its two `except` clauses.  Both clauses unlink the file if it still
exists; an `OSError` from that unlink is raised from inside the handler and
so replaces the caught error.  The generic clause re-raises as
HTTPException(400, "Invalid image file"). -/
def validate_file_content (fs : FS) (file_path : String) : Except PyErr Unit × FS :=
  match validate_file_content_try fs file_path with
  | .ok _ => (.ok (), fs)
  | .error e =>
    if e.isHTTPException then
      if fs.fileExists file_path then
        match fs.unlink file_path with
        | .error oe => (.error oe, fs)
        | .ok fs' => (.error e, fs')
      else (.error e, fs)
    else
      if fs.fileExists file_path then
        match fs.unlink file_path with
        | .error oe => (.error oe, fs)
        | .ok fs' => (.error PyErr.invalidImage, fs')
      else (.error PyErr.invalidImage, fs)

/-- The directory for one report, `self.upload_dir / str(report_id)`. -/
def report_dir (report_id : Nat) : String :=
  UPLOAD_DIR ++ "/" ++ toString report_id

/-- `FileUploadService.create_report_directory` (lines 106–110). -/
def create_report_directory (fs : FS) (report_id : Nat) : FS :=
  fs.mkdirP (report_dir report_id)

/-- `FileUploadService.__init__` (lines 16–18): create the upload root. -/
def service_init (fs : FS) : FS :=
  fs.mkdirP UPLOAD_DIR

/-- The `try` body of `FileUploadService.save_file` (lines 125–143):
`open(file_path, "wb")` creates/truncates the file (so the file exists,
empty, from this point even if a later check fails), `await file.read()`,
the authoritative size check on the actual bytes, the write, then content
validation; on success the returned storage reference is rebuilt as
`f"{UPLOAD_DIR}/{report_id}/{filename}"`.  An injected `openFails` fault
makes the `open` raise `OSError` before any file is created. -/
def save_file_try (fs : FS) (file : UploadFile) (report_id : Nat) (filename : String)
    (file_path : String) : Except PyErr String × FS :=
  if fs.openFails.contains file_path then (.error (.osError file_path), fs)
  else
    let fs1 := fs.writeFile file_path []
    let content := file.content
    if content.length > MAX_FILE_SIZE then (.error PyErr.sizeExceeded, fs1)
    else
      let fs2 := fs1.writeFile file_path content
      match validate_file_content fs2 file_path with
      | (.ok _, fs3) =>
        (.ok (UPLOAD_DIR ++ "/" ++ toString report_id ++ "/" ++ filename), fs3)
      | (.error e, fs3) => (.error e, fs3)

/-- `FileUploadService.save_file` (lines 112–157): metadata validation (before
the `try`, so its errors propagate with no filesystem effect), lazy report
directory creation, unique-name generation (one `uuid.uuid4()` draw), then
the `try` body with its two `except` clauses.  Both clauses unlink the file
if it still exists (an `OSError` from that unlink is raised from inside the
handler and replaces the caught error); the `except HTTPException` clause
re-raises, the generic clause raises HTTPException(500, "Failed to save
file"). -/
def save_file (fs : FS) (file : UploadFile) (report_id : Nat) : Except PyErr String × FS :=
  match validate_file file with
  | .error e => (.error e, fs)
  | .ok _ =>
    let fs0 := create_report_directory fs report_id
    let filename := generate_unique_filename file.filename fs0.uuidCtr
    let fs1 : FS := { fs0 with uuidCtr := fs0.uuidCtr + 1 }
    let file_path := report_dir report_id ++ "/" ++ filename
    match save_file_try fs1 file report_id filename file_path with
    | (.ok r, fs') => (.ok r, fs')
    | (.error e, fs') =>
      if e.isHTTPException then
        if fs'.fileExists file_path then
          match fs'.unlink file_path with
          | .error oe => (.error oe, fs')
          | .ok fs'' => (.error e, fs'')
        else (.error e, fs')
      else
        if fs'.fileExists file_path then
          match fs'.unlink file_path with
          | .error oe => (.error oe, fs')
          | .ok fs'' => (.error PyErr.storageWriteFailed, fs'')
        else (.error PyErr.storageWriteFailed, fs')

/-- The rollback loop in the `except` clause of
`FileUploadService.save_multiple_files` (lines 180–185): unlink each
previously saved path that still exists.  There is no inner `try`, so an
`OSError` from one of these unlinks propagates at once, aborting the
remaining deletions. -/
def cleanup_saved (fs : FS) : List String → Except PyErr Unit × FS
  | [] => (.ok (), fs)
  | p :: rest =>
    if fs.fileExists p then
      match fs.unlink p with
      | .error oe => (.error oe, fs)
      | .ok fs' => cleanup_saved fs' rest
    else cleanup_saved fs rest

/-- The `for` loop of `save_multiple_files` (lines 171–185) together with its
surrounding `try/except`: candidates with a falsy filename are skipped; on
the first failing candidate the already-saved paths are rolled back and the
error re-raised — unless the rollback itself raises, in which case that
`OSError` propagates instead. -/
def save_files_loop (fs : FS) (files : List UploadFile) (report_id : Nat)
    (file_paths : List String) : Except PyErr (List String) × FS :=
  match files with
  | [] => (.ok file_paths, fs)
  | f :: rest =>
    if truthy f.filename then
      match save_file fs f report_id with
      | (.ok p, fs') => save_files_loop fs' rest report_id (file_paths ++ [p])
      | (.error e, fs') =>
        match cleanup_saved fs' file_paths with
        | (.ok _, fs'') => (.error e, fs'')
        | (.error oe, fs'') => (.error oe, fs'')
    else save_files_loop fs rest report_id file_paths

/-- `FileUploadService.save_multiple_files` (lines 159–185): the batch-size
gate, then the sequential loop. -/
def save_multiple_files (fs : FS) (files : List UploadFile) (report_id : Nat) :
    Except PyErr (List String) × FS :=
  if files.length > MAX_FILES_PER_REPORT then (.error PyErr.tooManyFiles, fs)
  else save_files_loop fs files report_id []

/-- `FileUploadService.delete_file` (lines 187–195): existence-guarded unlink
inside `try: ... except Exception: pass`, so a failing unlink leaves the
state unchanged and raises nothing. -/
def delete_file (fs : FS) (file_path : String) : FS :=
  if fs.fileExists file_path then
    match fs.unlink file_path with
    | .error _ => fs
    | .ok fs' => fs'
  else fs

/-- Whether `p` lies directly inside directory `d` (`p = d ++ "/" ++ name`
with `name` nonempty and slash-free); `report_dir.iterdir()` yields exactly
these paths, every one a regular file in this model. -/
def isDirectChild (d p : String) : Bool :=
  (d.data ++ ['/']).isPrefixOf p.data
    && !((p.data.drop (d.data.length + 1)).contains '/')
    && (p.data.drop (d.data.length + 1)) != []

/-- The direct children of `d` present in the file map, in map order. -/
def FS.filesInDir (fs : FS) (d : String) : List String :=
  (fs.files.map Prod.fst).filter (fun p => isDirectChild d p)

/-- The unlink loop of `delete_report_files` (lines 202–204): unlink each
entry; the first `OSError` propagates out of the loop. -/
def unlink_children (fs : FS) : List String → Except PyErr Unit × FS
  | [] => (.ok (), fs)
  | p :: rest =>
    match fs.unlink p with
    | .error oe => (.error oe, fs)
    | .ok fs' => unlink_children fs' rest

/-- The `try` body of `FileUploadService.delete_report_files` (lines
199–205): if the report directory exists, unlink every file in it, then
`rmdir` the directory. -/
def delete_report_files_try (fs : FS) (report_id : Nat) : Except PyErr Unit × FS :=
  let d := report_dir report_id
  if fs.dirs.contains d then
    match unlink_children fs (fs.filesInDir d) with
    | (.ok _, fs') => (.ok (), { fs' with dirs := fs'.dirs.filter (fun x => x != d) })
    | (.error e, fs') => (.error e, fs')
  else (.ok (), fs)

/-- `FileUploadService.delete_report_files` (lines 197–208): the `try` body
with every error swallowed by `except Exception: pass` — the state reached
when the error was raised is kept, the error itself is dropped. -/
def delete_report_files (fs : FS) (report_id : Nat) : FS :=
  (delete_report_files_try fs report_id).2

/-- The database rows the photo flow touches: committed report ids and
`WastePhoto` rows as (report id, photo url) pairs. -/
structure DB where
  reports : List Nat
  photos : List (Nat × String)
deriving Repr, DecidableEq

/-- `WastePhotoRepository.create_multiple` (waste_report.py lines 226–241):
one `WastePhoto(waste_report_id, photo_url)` row per url, committed in
order. -/
def create_multiple_photos (db : DB) (report_id : Nat) (photo_urls : List String) : DB :=
  { db with photos := db.photos ++ photo_urls.map (fun u => (report_id, u)) }

/-- The photo-upload block that appears verbatim in both report handlers
(router.py lines 69–81 and 240–251): guarded by Python-truthy `photos` and at
least one truthy filename, call `save_multiple_files`, persist the rows when
the url list is truthy, and swallow every exception
(`except Exception: pass`). -/
def handle_photo_uploads (db : DB) (fs : FS) (photos : List UploadFile) (report_id : Nat) :
    DB × FS :=
  if photos != [] && photos.any (fun p => truthy p.filename) then
    match save_multiple_files fs photos report_id with
    | (.ok photo_urls, fs') =>
      (if photo_urls != [] then create_multiple_photos db report_id photo_urls else db, fs')
    | (.error _, fs') => (db, fs')
  else (db, fs)

/-- `create_waste_report` (router.py lines 23–95), restricted to the state
this development models: the report row is committed first (the repository
assigns `report_id`; it is a parameter here), then the photo block runs, and
the handler returns the report id as its success payload. -/
def create_waste_report (db : DB) (fs : FS) (report_id : Nat) (photos : List UploadFile) :
    (DB × FS) × Nat :=
  let db1 : DB := { db with reports := db.reports ++ [report_id] }
  let p := handle_photo_uploads db1 fs photos report_id
  ((p.1, p.2), report_id)

/-- `update_waste_report` (router.py lines 176–255), restricted to the state
this development models: 404 when the report row is absent, otherwise the
photo block runs (field updates do not interact with it) and the handler
returns the report id as its success payload. -/
def update_waste_report (db : DB) (fs : FS) (report_id : Nat) (photos : List UploadFile) :
    Except PyErr ((DB × FS) × Nat) :=
  if !db.reports.contains report_id then .error PyErr.notFound
  else
    let p := handle_photo_uploads db fs photos report_id
    .ok ((p.1, p.2), report_id)

/-! ### Specification-side definitions used by the theorem statements -/

/-- The metadata-and-content validity bundle the spec calls a valid JPEG/PNG
candidate: truthy filename with an allowed (case-insensitively compared)
extension, allowed declared content-type, declared size within the limit
whenever the attribute is available (`fastapi` reports the spooled file's
actual size there), and nonempty signature-bearing bytes of at most
`MAX_FILE_SIZE`. -/
def validCandidate (f : UploadFile) : Prop :=
  truthy f.filename = true
  ∧ ALLOWED_EXTENSIONS.contains (pyLower (pySuffix (f.filename.getD ""))) = true
  ∧ mimeAllowed f.content_type = true
  ∧ f.size.getD 0 ≤ MAX_FILE_SIZE
  ∧ f.content ≠ []
  ∧ f.content.length ≤ MAX_FILE_SIZE
  ∧ hasImageSig f.content = true

instance (f : UploadFile) : Decidable (validCandidate f) := by
  unfold validCandidate
  infer_instance

/-- `p` names a stored file whose first bytes carry an image signature. -/
def goodIn (fs : FS) (p : String) : Prop :=
  fs.fileExists p = true ∧ hasImageSig (fs.readBytes p) = true

/-- The path `save_file` stores one candidate under when invoked on state
`fs` (the uuid draw is the current counter value). -/
def savedPath (fs : FS) (f : UploadFile) (rid : Nat) : String :=
  report_dir rid ++ "/" ++ generate_unique_filename f.filename fs.uuidCtr

/-- The state after `save_file` accepts a candidate: report directory
created, counter advanced, candidate bytes stored at `savedPath`. -/
def savedState (fs : FS) (f : UploadFile) (rid : Nat) : FS :=
  { dirs := (create_report_directory fs rid).dirs
  , files := fs.files.filter (fun kv => kv.1 != savedPath fs f rid)
      ++ [(savedPath fs f rid, f.content)]
  , unlinkFails := fs.unlinkFails
  , openFails := fs.openFails
  , uuidCtr := fs.uuidCtr + 1 }

/-- The state after `save_file` wrote a candidate's file and then deleted it
again during error handling: directory and counter advanced, no file at
`savedPath`. -/
def rolledBack (fs : FS) (f : UploadFile) (rid : Nat) : FS :=
  { dirs := (create_report_directory fs rid).dirs
  , files := fs.files.filter (fun kv => kv.1 != savedPath fs f rid)
  , unlinkFails := fs.unlinkFails
  , openFails := fs.openFails
  , uuidCtr := fs.uuidCtr + 1 }

/-! ### Helper lemmas: record fields of the filesystem operations -/

@[simp] lemma writeFile_dirs (fs : FS) (p : String) (b : Bytes) :
    (fs.writeFile p b).dirs = fs.dirs := rfl

@[simp] lemma writeFile_unlinkFails (fs : FS) (p : String) (b : Bytes) :
    (fs.writeFile p b).unlinkFails = fs.unlinkFails := rfl

@[simp] lemma writeFile_openFails (fs : FS) (p : String) (b : Bytes) :
    (fs.writeFile p b).openFails = fs.openFails := rfl

@[simp] lemma writeFile_uuidCtr (fs : FS) (p : String) (b : Bytes) :
    (fs.writeFile p b).uuidCtr = fs.uuidCtr := rfl

@[simp] lemma removeFile_dirs (fs : FS) (p : String) :
    (fs.removeFile p).dirs = fs.dirs := rfl

@[simp] lemma removeFile_unlinkFails (fs : FS) (p : String) :
    (fs.removeFile p).unlinkFails = fs.unlinkFails := rfl

@[simp] lemma removeFile_openFails (fs : FS) (p : String) :
    (fs.removeFile p).openFails = fs.openFails := rfl

@[simp] lemma removeFile_uuidCtr (fs : FS) (p : String) :
    (fs.removeFile p).uuidCtr = fs.uuidCtr := rfl

@[simp] lemma mkdirP_files (fs : FS) (d : String) :
    (fs.mkdirP d).files = fs.files := by
  unfold FS.mkdirP; split <;> rfl

@[simp] lemma mkdirP_unlinkFails (fs : FS) (d : String) :
    (fs.mkdirP d).unlinkFails = fs.unlinkFails := by
  unfold FS.mkdirP; split <;> rfl

@[simp] lemma mkdirP_openFails (fs : FS) (d : String) :
    (fs.mkdirP d).openFails = fs.openFails := by
  unfold FS.mkdirP; split <;> rfl

@[simp] lemma mkdirP_uuidCtr (fs : FS) (d : String) :
    (fs.mkdirP d).uuidCtr = fs.uuidCtr := by
  unfold FS.mkdirP; split <;> rfl

@[simp] lemma create_report_directory_files (fs : FS) (rid : Nat) :
    (create_report_directory fs rid).files = fs.files := by
  unfold create_report_directory; simp

@[simp] lemma create_report_directory_unlinkFails (fs : FS) (rid : Nat) :
    (create_report_directory fs rid).unlinkFails = fs.unlinkFails := by
  unfold create_report_directory; simp

@[simp] lemma create_report_directory_openFails (fs : FS) (rid : Nat) :
    (create_report_directory fs rid).openFails = fs.openFails := by
  unfold create_report_directory; simp

@[simp] lemma create_report_directory_uuidCtr (fs : FS) (rid : Nat) :
    (create_report_directory fs rid).uuidCtr = fs.uuidCtr := by
  unfold create_report_directory; simp

/-! ### Helper lemmas: lookups after filter/append on key-value lists -/

lemma any_key_filter_self (l : List (String × Bytes)) (p : String) :
    (l.filter (fun kv => kv.1 != p)).any (fun kv => kv.1 == p) = false := by
  induction l with
  | nil => rfl
  | cons kv t ih =>
    by_cases h : kv.1 = p
    · simp [List.filter_cons, h, ih]
    · simp [List.filter_cons, h, ih]

lemma any_key_filter_ne (l : List (String × Bytes)) (p q : String) (h : q ≠ p) :
    (l.filter (fun kv => kv.1 != p)).any (fun kv => kv.1 == q) =
      l.any (fun kv => kv.1 == q) := by
  induction l with
  | nil => rfl
  | cons kv t ih =>
    rw [List.filter_cons]
    by_cases h2 : kv.1 = p
    · have hb : (kv.1 != p) = false := by simp [h2]
      have hq : (kv.1 == q) = false := by
        rw [h2]; exact beq_eq_false_iff_ne.mpr fun hx => h hx.symm
      rw [hb]
      simp only [Bool.false_eq_true, if_false, List.any_cons, hq, Bool.false_or, ih]
    · have hb : (kv.1 != p) = true := by simp [h2]
      rw [hb]
      simp only [if_true, List.any_cons, ih]

lemma find?_key_filter_self (l : List (String × Bytes)) (p : String) :
    (l.filter (fun kv => kv.1 != p)).find? (fun kv => kv.1 == p) = none := by
  induction l with
  | nil => rfl
  | cons kv t ih =>
    by_cases h : kv.1 = p
    · simp [List.filter_cons, h, ih]
    · simp [List.filter_cons, h, List.find?_cons, ih]

lemma find?_key_filter_ne (l : List (String × Bytes)) (p q : String) (h : q ≠ p) :
    (l.filter (fun kv => kv.1 != p)).find? (fun kv => kv.1 == q) =
      l.find? (fun kv => kv.1 == q) := by
  induction l with
  | nil => rfl
  | cons kv t ih =>
    rw [List.filter_cons]
    by_cases h2 : kv.1 = p
    · have hb : (kv.1 != p) = false := by simp [h2]
      have hq : (kv.1 == q) = false := by
        rw [h2]; exact beq_eq_false_iff_ne.mpr fun hx => h hx.symm
      rw [hb]
      simp only [Bool.false_eq_true, if_false, ih, List.find?_cons, hq]
    · have hb : (kv.1 != p) = true := by simp [h2]
      rw [hb]
      simp only [if_true, List.find?_cons, ih]

lemma filter_key_idem (l : List (String × Bytes)) (p : String) :
    (l.filter (fun kv => kv.1 != p)).filter (fun kv => kv.1 != p) =
      l.filter (fun kv => kv.1 != p) := by
  rw [List.filter_filter]
  exact List.filter_congr (fun kv _ => by cases hb : (kv.1 != p) <;> simp [hb])

/-! ### Helper lemmas: `fileExists` / `readBytes` after `writeFile` / `removeFile` -/

@[simp] lemma fileExists_writeFile_self (fs : FS) (p : String) (b : Bytes) :
    (fs.writeFile p b).fileExists p = true := by
  simp [FS.fileExists, FS.writeFile]

lemma fileExists_writeFile_ne (fs : FS) (p q : String) (b : Bytes) (h : q ≠ p) :
    (fs.writeFile p b).fileExists q = fs.fileExists q := by
  simp only [FS.fileExists, FS.writeFile, List.any_append, any_key_filter_ne _ _ _ h]
  have : ¬ p = q := fun hp => h hp.symm
  simp [this]

@[simp] lemma readBytes_writeFile_self (fs : FS) (p : String) (b : Bytes) :
    (fs.writeFile p b).readBytes p = b := by
  simp only [FS.readBytes, FS.writeFile]
  rw [List.find?_append, find?_key_filter_self]
  simp [List.find?_cons]

lemma readBytes_writeFile_ne (fs : FS) (p q : String) (b : Bytes) (h : q ≠ p) :
    (fs.writeFile p b).readBytes q = fs.readBytes q := by
  have hne : (p == q) = false := beq_eq_false_iff_ne.mpr fun hp => h hp.symm
  simp only [FS.readBytes, FS.writeFile]
  rw [List.find?_append, find?_key_filter_ne _ _ _ h]
  cases hf : fs.files.find? (fun kv => kv.1 == q) with
  | some kv => simp
  | none => simp [List.find?_cons, hne]

@[simp] lemma fileExists_removeFile_self (fs : FS) (p : String) :
    (fs.removeFile p).fileExists p = false := by
  simp [FS.fileExists, FS.removeFile, any_key_filter_self]

lemma writeFile_writeFile_self (fs : FS) (p : String) (b c : Bytes) :
    (fs.writeFile p b).writeFile p c = fs.writeFile p c := by
  unfold FS.writeFile
  simp [List.filter_append, filter_key_idem]

lemma removeFile_writeFile_self (fs : FS) (p : String) (b : Bytes) :
    (fs.writeFile p b).removeFile p = fs.removeFile p := by
  unfold FS.writeFile FS.removeFile
  simp [List.filter_append, filter_key_idem]

lemma mem_files_removeFile (fs : FS) (p : String) (pb : String × Bytes) :
    pb ∈ (fs.removeFile p).files ↔ pb ∈ fs.files ∧ pb.1 ≠ p := by
  simp [FS.removeFile, List.mem_filter]

lemma mem_files_writeFile (fs : FS) (p : String) (b : Bytes) (pb : String × Bytes) :
    pb ∈ (fs.writeFile p b).files ↔ (pb ∈ fs.files ∧ pb.1 ≠ p) ∨ pb = (p, b) := by
  simp [FS.writeFile, List.mem_filter, List.mem_append]

/-! ### Helper lemmas: strings, signatures, generated names -/

lemma string_append_cancel_left (a b c : String) (h : a ++ b = a ++ c) : b = c := by
  apply String.ext
  have hd := congrArg String.data h
  rw [String.data_append, String.data_append] at hd
  exact List.append_cancel_left hd

lemma isPrefixOf_take (sig l : Bytes) (n : Nat) (hn : sig.length ≤ n)
    (h : sig.isPrefixOf l = true) : sig.isPrefixOf (l.take n) = true := by
  rw [ List.isPrefixOf_iff_prefix] at h ⊢
  exact List.prefix_take_iff.mpr ⟨h, hn⟩

lemma hasImageSig_take_10 (b : Bytes) (h : hasImageSig b = true) :
    hasImageSig (b.take 10) = true := by
  unfold hasImageSig at h ⊢
  rcases Bool.or_eq_true_iff.mp h with hj | hp
  · exact Bool.or_eq_true_iff.mpr (Or.inl (isPrefixOf_take _ _ _ (by decide) hj))
  · exact Bool.or_eq_true_iff.mpr (Or.inr (isPrefixOf_take _ _ _ (by decide) hp))

lemma uuidStr_inj {n₁ n₂ : Nat} (h : uuidStr n₁ = uuidStr n₂) : n₁ = n₂ := by
  have hl := congrArg (fun s => s.data.length) h
  simpa [uuidStr] using hl

lemma uuidStr_no_dot (n : Nat) : ∀ c ∈ (uuidStr n).data, c ≠ '.' := by
  intro c hc
  simp only [uuidStr] at hc
  rcases List.mem_cons.mp hc with h | h
  · rw [h]; decide
  · rw [List.eq_of_mem_replicate h]; decide

lemma pySuffix_shape (s : String) :
    pySuffix s = "" ∨ ∃ t, (pySuffix s).data = '.' :: t := by
  simp only [pySuffix]
  split
  · split
    · right; exact ⟨_, rfl⟩
    · left; rfl
  · left; rfl

lemma pyLower_pySuffix_shape (s : String) :
    pyLower (pySuffix s) = "" ∨ ∃ t, (pyLower (pySuffix s)).data = '.' :: t := by
  rcases pySuffix_shape s with h | ⟨t, h⟩
  · left; rw [h]; rfl
  · right
    refine ⟨t.map Char.toLower, ?_⟩
    simp [pyLower, h]

lemma takeWhile_no_dot_append (u e : List Char) (hu : ∀ c ∈ u, c ≠ '.')
    (he : e = [] ∨ ∃ t, e = '.' :: t) :
    (u ++ e).takeWhile (fun c => c != '.') = u := by
  induction u with
  | nil =>
    rcases he with h | ⟨t, h⟩ <;> rw [h] <;> rfl
  | cons c u' ih =>
    have hc : (c != '.') = true := by
      simp only [bne_iff_ne]
      exact hu c (List.mem_cons_self c u')
    rw [List.cons_append, List.takeWhile_cons, hc]
    simp only [if_true]
    rw [ih (fun x hx => hu x (List.mem_cons_of_mem c hx))]

lemma generate_unique_filename_inj {o₁ o₂ : Option String} {n₁ n₂ : Nat}
    (hn : n₁ ≠ n₂) :
    generate_unique_filename o₁ n₁ ≠ generate_unique_filename o₂ n₂ := by
  intro h
  unfold generate_unique_filename at h
  have hd := congrArg String.data h
  rw [String.data_append, String.data_append] at hd
  have hshape1 := pyLower_pySuffix_shape
    (if truthy o₁ then o₁.getD "" else "unnamed.jpg")
  have hshape2 := pyLower_pySuffix_shape
    (if truthy o₂ then o₂.getD "" else "unnamed.jpg")
  have htw := congrArg (List.takeWhile (fun c => c != '.')) hd
  have he1 : (pyLower (pySuffix (if truthy o₁ then o₁.getD "" else "unnamed.jpg"))).data = []
      ∨ ∃ t, (pyLower (pySuffix (if truthy o₁ then o₁.getD "" else "unnamed.jpg"))).data
          = '.' :: t := by
    rcases hshape1 with h1 | ⟨t, h1⟩
    · left; rw [h1]
    · right; exact ⟨t, h1⟩
  have he2 : (pyLower (pySuffix (if truthy o₂ then o₂.getD "" else "unnamed.jpg"))).data = []
      ∨ ∃ t, (pyLower (pySuffix (if truthy o₂ then o₂.getD "" else "unnamed.jpg"))).data
          = '.' :: t := by
    rcases hshape2 with h2 | ⟨t, h2⟩
    · left; rw [h2]
    · right; exact ⟨t, h2⟩
  rw [takeWhile_no_dot_append _ _ (uuidStr_no_dot n₁) he1,
      takeWhile_no_dot_append _ _ (uuidStr_no_dot n₂) he2] at htw
  exact hn (uuidStr_inj (String.ext htw))

/-! ### Characterizing `validate_file_content`, `save_file_try` and `save_file` -/

lemma validate_file_content_snd (fs : FS) (p : String) :
    (validate_file_content fs p).2 = fs ∨ (validate_file_content fs p).2 = fs.removeFile p := by
  unfold validate_file_content
  cases htry : validate_file_content_try fs p with
  | ok u => left; rfl
  | error e =>
    simp only []
    by_cases hh : e.isHTTPException = true
    · rw [if_pos hh]
      by_cases hex : fs.fileExists p = true
      · rw [if_pos hex]
        unfold FS.unlink
        by_cases hu : fs.unlinkFails.contains p = true
        · rw [if_pos hu]; left; rfl
        · rw [if_neg hu]; right; rfl
      · rw [if_neg hex]
        left; rfl
    · rw [if_neg hh]
      by_cases hex : fs.fileExists p = true
      · rw [if_pos hex]
        unfold FS.unlink
        by_cases hu : fs.unlinkFails.contains p = true
        · rw [if_pos hu]; left; rfl
        · rw [if_neg hu]; right; rfl
      · rw [if_neg hex]
        left; rfl

lemma validate_file_content_fst_error (fs : FS) (p : String) {e : PyErr}
    (h : (validate_file_content fs p).1 = .error e) :
    ∃ e₀, validate_file_content_try fs p = .error e₀ := by
  by_contra hno
  push_neg at hno
  cases htry : validate_file_content_try fs p with
  | error e₀ => exact hno e₀ htry
  | ok u =>
    unfold validate_file_content at h
    rw [htry] at h
    cases h

lemma validate_file_content_ok_snd {fs : FS} {p : String} {u : Unit} {fs' : FS}
    (h : validate_file_content fs p = (.ok u, fs')) : fs' = fs := by
  cases htry : validate_file_content_try fs p with
  | ok v =>
    unfold validate_file_content at h
    rw [htry] at h
    exact (Prod.mk.inj h.symm).2
  | error e =>
    unfold validate_file_content at h
    rw [htry] at h
    simp only [] at h
    by_cases hh : e.isHTTPException = true <;>
    · first
      | rw [if_pos hh] at h
      | rw [if_neg hh] at h
      by_cases hex : fs.fileExists p = true
      · rw [if_pos hex] at h
        unfold FS.unlink at h
        by_cases hu : fs.unlinkFails.contains p = true
        · rw [if_pos hu] at h; exact absurd (congrArg Prod.fst h).symm (by simp)
        · rw [if_neg hu] at h
          exact absurd (congrArg Prod.fst h).symm (by simp)
      · rw [if_neg hex] at h
        exact absurd (congrArg Prod.fst h).symm (by simp)

lemma validate_file_valid {f : UploadFile} (h1 : truthy f.filename = true)
    (h2 : ALLOWED_EXTENSIONS.contains (pyLower (pySuffix (f.filename.getD ""))) = true)
    (h3 : mimeAllowed f.content_type = true)
    (h4 : f.size.getD 0 ≤ MAX_FILE_SIZE) :
    validate_file f = .ok () := by
  have h2' : pyLower (pySuffix (f.filename.getD "")) ∈ ALLOWED_EXTENSIONS := by
    simpa using h2
  unfold validate_file
  simp [h1, h2', h3, Nat.not_lt.mpr h4]

lemma validate_file_content_try_of_good {fs : FS} {p : String}
    (hex : fs.fileExists p = true) (hne : (fs.readBytes p).length ≠ 0)
    (hsig : hasImageSig ((fs.readBytes p).take 10) = true) :
    validate_file_content_try fs p = .ok () := by
  unfold validate_file_content_try
  simp [hex, hne, hsig]

lemma validate_file_content_of_try_ok {fs : FS} {p : String}
    (h : validate_file_content_try fs p = .ok ()) :
    validate_file_content fs p = (.ok (), fs) := by
  unfold validate_file_content
  rw [h]

lemma save_file_valid (fs : FS) (f : UploadFile) (rid : Nat)
    (hv : validCandidate f) (hopen : fs.openFails = []) :
    save_file fs f rid =
      (.ok (UPLOAD_DIR ++ "/" ++ toString rid ++ "/"
              ++ generate_unique_filename f.filename fs.uuidCtr),
       savedState fs f rid) := by
  obtain ⟨h1, h2, h3, h4, h5, h6, h7⟩ := hv
  have hval := validate_file_valid h1 h2 h3 h4
  have hlen : f.content.length ≠ 0 := fun h0 => h5 (List.length_eq_zero.mp h0)
  have hsig10 := hasImageSig_take_10 _ h7
  have hnotbig : ¬ f.content.length > MAX_FILE_SIZE := Nat.not_lt.mpr h6
  simp only [save_file, hval, save_file_try, writeFile_writeFile_self,
    create_report_directory_uuidCtr, create_report_directory_openFails, hopen]
  rw [if_neg (by simp), if_neg hnotbig]
  rw [validate_file_content_of_try_ok
    (validate_file_content_try_of_good (fileExists_writeFile_self _ _ _)
      (by rw [readBytes_writeFile_self]; exact hlen)
      (by rw [readBytes_writeFile_self]; exact hsig10))]
  simp only [savedState, savedPath, FS.writeFile, create_report_directory_files,
    mkdirP_unlinkFails, mkdirP_openFails, create_report_directory_unlinkFails,
    create_report_directory_openFails]
  rw [hopen]

lemma save_file_ok_shape {fs : FS} {f : UploadFile} {rid : Nat} {p : String} {fs' : FS}
    (h : save_file fs f rid = (.ok p, fs')) :
    p = UPLOAD_DIR ++ "/" ++ toString rid ++ "/"
          ++ generate_unique_filename f.filename fs.uuidCtr
    ∧ fs' = savedState fs f rid := by
  rw [save_file] at h
  cases hval : validate_file f with
  | error e =>
    rw [hval] at h
    exact absurd (congrArg Prod.fst h) (by simp)
  | ok u =>
    rw [hval] at h
    simp only [create_report_directory_uuidCtr] at h
    generalize hA : save_file_try
        { create_report_directory fs rid with uuidCtr := fs.uuidCtr + 1 } f rid
        (generate_unique_filename f.filename fs.uuidCtr)
        (report_dir rid ++ "/" ++ generate_unique_filename f.filename fs.uuidCtr)
        = A at h
    obtain ⟨res, fsA⟩ := A
    cases res with
    | error e =>
      exfalso
      simp only [] at h
      by_cases hh : e.isHTTPException = true
      · rw [if_pos hh] at h
        by_cases hex : fsA.fileExists
            (report_dir rid ++ "/" ++ generate_unique_filename f.filename fs.uuidCtr) = true
        · rw [if_pos hex] at h
          unfold FS.unlink at h
          by_cases hu : fsA.unlinkFails.contains
              (report_dir rid ++ "/" ++ generate_unique_filename f.filename fs.uuidCtr) = true
          · rw [if_pos hu] at h; exact absurd (congrArg Prod.fst h) (by simp)
          · rw [if_neg hu] at h
            exact absurd (congrArg Prod.fst h) (by simp)
        · rw [if_neg hex] at h
          exact absurd (congrArg Prod.fst h) (by simp)
      · rw [if_neg hh] at h
        by_cases hex : fsA.fileExists
            (report_dir rid ++ "/" ++ generate_unique_filename f.filename fs.uuidCtr) = true
        · rw [if_pos hex] at h
          unfold FS.unlink at h
          by_cases hu : fsA.unlinkFails.contains
              (report_dir rid ++ "/" ++ generate_unique_filename f.filename fs.uuidCtr) = true
          · rw [if_pos hu] at h; exact absurd (congrArg Prod.fst h) (by simp)
          · rw [if_neg hu] at h
            exact absurd (congrArg Prod.fst h) (by simp)
        · rw [if_neg hex] at h
          exact absurd (congrArg Prod.fst h) (by simp)
    | ok r =>
      simp only [] at h
      obtain ⟨hp, hfs⟩ := Prod.mk.inj h
      simp only [save_file_try] at hA
      rw [writeFile_writeFile_self] at hA
      split at hA
      · exact absurd (congrArg Prod.fst hA) (by simp)
      · split at hA
        · exact absurd (congrArg Prod.fst hA) (by simp)
        · split at hA
          · rename_i uu fs3 hV
            obtain ⟨hr, hfsA⟩ := Prod.mk.inj hA
            have hVsnd := validate_file_content_ok_snd hV
            constructor
            · exact ((Except.ok.inj hr).trans (Except.ok.inj hp)).symm
            · rw [← hfs, ← hfsA, hVsnd]
              simp only [savedState, savedPath, FS.writeFile, create_report_directory_files,
                create_report_directory_unlinkFails, create_report_directory_openFails]
          · exact absurd (congrArg Prod.fst hA) (by simp)

/-! ### Error paths of `save_file` and the rollback loop -/

lemma not_fileExists_mem {fs : FS} {p : String} (h : fs.fileExists p = false)
    {pb : String × Bytes} (hm : pb ∈ fs.files) : pb.1 ≠ p := by
  intro hp
  have : fs.files.any (fun kv => kv.1 == p) = true :=
    List.any_eq_true.mpr ⟨pb, hm, by simp [hp]⟩
  rw [FS.fileExists] at h
  rw [h] at this
  cases this

lemma savedPath_eq (fs : FS) (f : UploadFile) (rid : Nat) :
    savedPath fs f rid
      = UPLOAD_DIR ++ "/" ++ toString rid ++ "/"
          ++ generate_unique_filename f.filename fs.uuidCtr := rfl

lemma mem_files_savedState (fs : FS) (f : UploadFile) (rid : Nat) (pb : String × Bytes) :
    pb ∈ (savedState fs f rid).files ↔
      (pb ∈ fs.files ∧ pb.1 ≠ savedPath fs f rid) ∨ pb = (savedPath fs f rid, f.content) := by
  simp [savedState, List.mem_filter, List.mem_append]

lemma save_file_try_snd_fields (fs : FS) (f : UploadFile) (rid : Nat) (fn path : String) :
    ((save_file_try fs f rid fn path).2).unlinkFails = fs.unlinkFails
    ∧ ((save_file_try fs f rid fn path).2).openFails = fs.openFails := by
  simp only [save_file_try]
  split
  · exact ⟨rfl, rfl⟩
  · split
    · simp
    · split
      · rename_i a fs3 heq
        have hsnd := validate_file_content_snd
          ((fs.writeFile path []).writeFile path f.content) path
        rw [heq] at hsnd
        rcases hsnd with hs | hs <;> simp only [] at hs <;> simp [hs]
      · rename_i e fs3 heq
        have hsnd := validate_file_content_snd
          ((fs.writeFile path []).writeFile path f.content) path
        rw [heq] at hsnd
        rcases hsnd with hs | hs <;> simp only [] at hs <;> simp [hs]

lemma save_file_snd_fields (fs : FS) (f : UploadFile) (rid : Nat) :
    ((save_file fs f rid).2).unlinkFails = fs.unlinkFails
    ∧ ((save_file fs f rid).2).openFails = fs.openFails := by
  rw [save_file]
  cases hval : validate_file f with
  | error e => exact ⟨rfl, rfl⟩
  | ok u =>
    simp only [create_report_directory_uuidCtr]
    generalize hA : save_file_try
        { create_report_directory fs rid with uuidCtr := fs.uuidCtr + 1 } f rid
        (generate_unique_filename f.filename fs.uuidCtr)
        (report_dir rid ++ "/" ++ generate_unique_filename f.filename fs.uuidCtr)
        = A
    obtain ⟨res, fsA⟩ := A
    have hfields : fsA.unlinkFails = fs.unlinkFails ∧ fsA.openFails = fs.openFails := by
      have h1 := save_file_try_snd_fields
        { create_report_directory fs rid with uuidCtr := fs.uuidCtr + 1 } f rid
        (generate_unique_filename f.filename fs.uuidCtr)
        (report_dir rid ++ "/" ++ generate_unique_filename f.filename fs.uuidCtr)
      rw [hA] at h1
      simpa using h1
    cases res with
    | ok r => exact hfields
    | error e =>
      simp only []
      split <;>
      · split
        · rename_i hex
          unfold FS.unlink
          split
          · exact hfields
          · rename_i fs2 heq
            split at heq
            · cases heq
            · have hfs2 : fs2 = fsA.removeFile
                  (report_dir rid ++ "/" ++ generate_unique_filename f.filename fs.uuidCtr) :=
                (Except.ok.inj heq).symm
              rw [hfs2]; simp [hfields.1, hfields.2]
        · exact hfields

lemma save_file_try_error_mem {fs : FS} {f : UploadFile} {rid : Nat} {fn path : String}
    {e : PyErr} {fs' : FS}
    (h : save_file_try fs f rid fn path = (.error e, fs')) :
    ∀ pb, pb ∈ fs'.files → pb ∈ fs.files ∨ pb.1 = path := by
  simp only [save_file_try] at h
  split at h
  · obtain ⟨-, hfs⟩ := Prod.mk.inj h
    intro pb hm
    rw [← hfs] at hm
    exact Or.inl hm
  · split at h
    · obtain ⟨-, hfs⟩ := Prod.mk.inj h
      intro pb hm
      rw [← hfs] at hm
      rcases (mem_files_writeFile fs path [] pb).mp hm with ⟨hin, -⟩ | hpb
      · exact Or.inl hin
      · exact Or.inr (by rw [hpb])
    · rw [writeFile_writeFile_self] at h
      split at h
      · exact absurd (congrArg Prod.fst h) (by simp)
      · rename_i e₀ fs3 heq
        obtain ⟨-, hfs⟩ := Prod.mk.inj h
        intro pb hm
        rw [← hfs] at hm
        have hsnd := validate_file_content_snd (fs.writeFile path f.content) path
        rw [heq] at hsnd
        simp only [] at hsnd
        rcases hsnd with hs | hs
        · rw [hs] at hm
          rcases (mem_files_writeFile fs path f.content pb).mp hm with ⟨hin, -⟩ | hpb
          · exact Or.inl hin
          · exact Or.inr (by rw [hpb])
        · rw [hs] at hm
          rcases (mem_files_removeFile _ _ pb).mp hm with ⟨hm2, -⟩
          rcases (mem_files_writeFile fs path f.content pb).mp hm2 with ⟨hin, -⟩ | hpb
          · exact Or.inl hin
          · exact Or.inr (by rw [hpb])

lemma save_file_error_mem {fs : FS} {f : UploadFile} {rid : Nat} {e : PyErr} {fs' : FS}
    (hclean : fs.unlinkFails = [])
    (h : save_file fs f rid = (.error e, fs')) :
    ∀ pb, pb ∈ fs'.files → pb ∈ fs.files := by
  rw [save_file] at h
  cases hval : validate_file f with
  | error e₀ =>
    rw [hval] at h
    obtain ⟨-, hfs⟩ := Prod.mk.inj h
    intro pb hm
    rw [← hfs] at hm
    exact hm
  | ok u =>
    rw [hval] at h
    simp only [create_report_directory_uuidCtr] at h
    generalize hA : save_file_try
        { create_report_directory fs rid with uuidCtr := fs.uuidCtr + 1 } f rid
        (generate_unique_filename f.filename fs.uuidCtr)
        (report_dir rid ++ "/" ++ generate_unique_filename f.filename fs.uuidCtr)
        = A at h
    obtain ⟨res, fsA⟩ := A
    have hmemA : ∀ pb, pb ∈ fsA.files → pb ∈ fs.files
        ∨ pb.1 = report_dir rid ++ "/" ++ generate_unique_filename f.filename fs.uuidCtr := by
      cases res with
      | ok r => intro pb hm; exact absurd (congrArg Prod.fst h) (by simp)
      | error e₀ =>
        intro pb hm
        have := save_file_try_error_mem hA pb hm
        simpa using this
    have hAclean : fsA.unlinkFails = [] := by
      have h1 := save_file_try_snd_fields
        { create_report_directory fs rid with uuidCtr := fs.uuidCtr + 1 } f rid
        (generate_unique_filename f.filename fs.uuidCtr)
        (report_dir rid ++ "/" ++ generate_unique_filename f.filename fs.uuidCtr)
      rw [hA] at h1
      have := h1.1
      simpa [hclean] using this
    cases res with
    | ok r => exact absurd (congrArg Prod.fst h) (by simp)
    | error e₀ =>
      simp only [] at h
      have huf : fsA.unlinkFails.contains
          (report_dir rid ++ "/" ++ generate_unique_filename f.filename fs.uuidCtr) = false := by
        rw [hAclean]; rfl
      split at h <;>
      · split at h
        · rename_i hex
          unfold FS.unlink at h
          rw [if_neg (by rw [huf]; exact Bool.false_ne_true)] at h
          obtain ⟨-, hfs⟩ := Prod.mk.inj h
          intro pb hm
          rw [← hfs] at hm
          obtain ⟨hm2, hne⟩ := (mem_files_removeFile _ _ pb).mp hm
          rcases hmemA pb hm2 with hin | hp
          · exact hin
          · exact absurd hp hne
        · rename_i hex
          obtain ⟨-, hfs⟩ := Prod.mk.inj h
          intro pb hm
          rw [← hfs] at hm
          rcases hmemA pb hm with hin | hp
          · exact hin
          · exact absurd hp (not_fileExists_mem (Bool.not_eq_true _ |>.mp hex) hm)

lemma cleanup_saved_clean {fs : FS} (hclean : fs.unlinkFails = []) (l : List String) :
    (cleanup_saved fs l).1 = .ok ()
    ∧ ((cleanup_saved fs l).2).unlinkFails = fs.unlinkFails
    ∧ ∀ pb, pb ∈ ((cleanup_saved fs l).2).files → pb ∈ fs.files ∧ pb.1 ∉ l := by
  induction l generalizing fs with
  | nil => exact ⟨rfl, rfl, fun pb h => ⟨h, by simp⟩⟩
  | cons p rest ih =>
    simp only [cleanup_saved]
    by_cases hex : fs.fileExists p = true
    · rw [if_pos hex]
      unfold FS.unlink
      have hcf : fs.unlinkFails.contains p = false := by rw [hclean]; rfl
      rw [if_neg (by rw [hcf]; exact Bool.false_ne_true)]
      have ihr := @ih (fs.removeFile p) (by simp [hclean])
      refine ⟨ihr.1, ?_, ?_⟩
      · rw [ihr.2.1]; simp
      · intro pb hm
        obtain ⟨hm2, hrest⟩ := ihr.2.2 pb hm
        obtain ⟨hin, hne⟩ := (mem_files_removeFile _ _ pb).mp hm2
        exact ⟨hin, by simp [hne, hrest]⟩
    · rw [if_neg hex]
      have ihr := @ih fs hclean
      refine ⟨ihr.1, ihr.2.1, ?_⟩
      intro pb hm
      obtain ⟨hm2, hrest⟩ := ihr.2.2 pb hm
      have hne := not_fileExists_mem (Bool.not_eq_true _ |>.mp hex) hm2
      exact ⟨hm2, by simp [hne, hrest]⟩

lemma save_files_loop_error_mem {rid : Nat} {fs₀ : FS} :
    ∀ (files : List UploadFile) (fs : FS) (acc : List String) (e : PyErr) (fs' : FS),
      fs.unlinkFails = [] →
      (∀ pb, pb ∈ fs.files → pb ∈ fs₀.files ∨ pb.1 ∈ acc) →
      save_files_loop fs files rid acc = (.error e, fs') →
      ∀ pb, pb ∈ fs'.files → pb ∈ fs₀.files := by
  intro files
  induction files with
  | nil =>
    intro fs acc e fs' _ _ h
    simp only [save_files_loop] at h
    exact absurd (congrArg Prod.fst h) (by simp)
  | cons f rest ih =>
    intro fs acc e fs' hclean hacc h
    simp only [save_files_loop] at h
    by_cases ht : truthy f.filename = true
    · rw [if_pos ht] at h
      generalize hS : save_file fs f rid = S at h
      obtain ⟨sres, fsS⟩ := S
      have hSclean : fsS.unlinkFails = [] := by
        have h1 := (save_file_snd_fields fs f rid).1
        rw [hS] at h1
        simpa [hclean] using h1
      cases sres with
      | ok p =>
        refine ih fsS (acc ++ [p]) e fs' hSclean ?_ h
        intro pb hm
        obtain ⟨hp, hfsS⟩ := save_file_ok_shape hS
        rw [hfsS] at hm
        rcases (mem_files_savedState fs f rid pb).mp hm with ⟨hin, -⟩ | hpb
        · rcases hacc pb hin with h0 | hin2
          · exact Or.inl h0
          · exact Or.inr (by simp [hin2])
        · refine Or.inr ?_
          rw [hpb, savedPath_eq, ← hp]
          simp
      | error e₀ =>
        simp only [] at h
        split at h
        · rename_i cu fsC hC
          obtain ⟨-, hfs⟩ := Prod.mk.inj h
          have hc := cleanup_saved_clean hSclean acc
          rw [hC] at hc
          simp only [] at hc
          intro pb hm
          rw [← hfs] at hm
          obtain ⟨hin, hnacc⟩ := hc.2.2 pb hm
          have hinfs := save_file_error_mem hclean hS pb hin
          rcases hacc pb hinfs with h0 | hin2
          · exact h0
          · exact absurd hin2 hnacc
        · rename_i oe fsC hC
          have hc := cleanup_saved_clean hSclean acc
          rw [hC] at hc
          cases hc.1
    · rw [if_neg ht] at h
      exact ih fs acc e fs' hclean hacc h

/-! ### The success path of the loop, and the shape of generated paths -/

@[simp] lemma savedState_uuidCtr (fs : FS) (f : UploadFile) (rid : Nat) :
    (savedState fs f rid).uuidCtr = fs.uuidCtr + 1 := rfl

@[simp] lemma savedState_unlinkFails (fs : FS) (f : UploadFile) (rid : Nat) :
    (savedState fs f rid).unlinkFails = fs.unlinkFails := rfl

@[simp] lemma savedState_openFails (fs : FS) (f : UploadFile) (rid : Nat) :
    (savedState fs f rid).openFails = fs.openFails := rfl

lemma savedState_as_writeFile (fs : FS) (f : UploadFile) (rid : Nat) :
    savedState fs f rid = FS.writeFile
      { dirs := (create_report_directory fs rid).dirs, files := fs.files,
        unlinkFails := fs.unlinkFails, openFails := fs.openFails, uuidCtr := fs.uuidCtr + 1 }
      (savedPath fs f rid) f.content := rfl

lemma goodIn_savedState_self (fs : FS) (f : UploadFile) (rid : Nat)
    (hsig : hasImageSig f.content = true) :
    goodIn (savedState fs f rid) (savedPath fs f rid) := by
  rw [savedState_as_writeFile]
  exact ⟨fileExists_writeFile_self _ _ _, by rw [readBytes_writeFile_self]; exact hsig⟩

lemma goodIn_savedState_of (fs : FS) (f : UploadFile) (rid : Nat) {p : String}
    (hsig : hasImageSig f.content = true) (hg : goodIn fs p) :
    goodIn (savedState fs f rid) p := by
  rw [savedState_as_writeFile]
  by_cases hp : p = savedPath fs f rid
  · rw [hp]
    exact ⟨fileExists_writeFile_self _ _ _, by rw [readBytes_writeFile_self]; exact hsig⟩
  · rw [goodIn]
    rw [fileExists_writeFile_ne _ _ _ _ hp, readBytes_writeFile_ne _ _ _ _ hp]
    exact hg

lemma save_files_loop_valid {rid : Nat} :
    ∀ (files : List UploadFile) (fs : FS) (acc : List String),
      (∀ f ∈ files, validCandidate f) → fs.openFails = [] →
      ∃ new fs', save_files_loop fs files rid acc = (.ok (acc ++ new), fs')
        ∧ new.length = files.length
        ∧ (∀ p ∈ new,
            (∃ name, p = UPLOAD_DIR ++ "/" ++ toString rid ++ "/" ++ name) ∧ goodIn fs' p)
        ∧ (∀ p, goodIn fs p → goodIn fs' p) := by
  intro files
  induction files with
  | nil =>
    intro fs acc _ _
    exact ⟨[], fs, by simp [save_files_loop], rfl, by simp, fun p h => h⟩
  | cons f rest ih =>
    intro fs acc hv hopen
    have hvf := hv f (List.mem_cons_self f rest)
    have hsave := save_file_valid fs f rid hvf hopen
    obtain ⟨new', fs', hloop, hlen, hmem, hpres⟩ :=
      ih (savedState fs f rid) (acc ++ [UPLOAD_DIR ++ "/" ++ toString rid ++ "/"
          ++ generate_unique_filename f.filename fs.uuidCtr])
        (fun g hg => hv g (List.mem_cons_of_mem f hg))
        (by rw [savedState_openFails]; exact hopen)
    refine ⟨(UPLOAD_DIR ++ "/" ++ toString rid ++ "/"
        ++ generate_unique_filename f.filename fs.uuidCtr) :: new', fs', ?_, ?_, ?_, ?_⟩
    · simp only [save_files_loop]
      rw [if_pos hvf.1, hsave]
      simp only []
      rw [hloop]
      simp
    · simp [hlen]
    · intro p hp
      rcases List.mem_cons.mp hp with hp0 | hpn
    -- the head is the freshly stored path, the tail comes from the induction
      · subst hp0
        refine ⟨⟨generate_unique_filename f.filename fs.uuidCtr, rfl⟩, ?_⟩
        have hgood := goodIn_savedState_self fs f rid hvf.2.2.2.2.2.2
        rw [savedPath_eq] at hgood
        exact hpres _ hgood
      · exact hmem p hpn
    · intro p hg
      exact hpres p (goodIn_savedState_of fs f rid hvf.2.2.2.2.2.2 hg)

lemma save_files_loop_ok_paths {rid : Nat} :
    ∀ (files : List UploadFile) (fs : FS) (acc : List String) (res : List String) (fs' : FS),
      save_files_loop fs files rid acc = (.ok res, fs') →
      fs.uuidCtr ≤ fs'.uuidCtr
      ∧ ∃ new, res = acc ++ new
          ∧ new.Pairwise (fun a b => a ≠ b)
          ∧ ∀ p ∈ new, ∃ o n, fs.uuidCtr ≤ n ∧ n < fs'.uuidCtr
              ∧ p = UPLOAD_DIR ++ "/" ++ toString rid ++ "/" ++ generate_unique_filename o n := by
  intro files
  induction files with
  | nil =>
    intro fs acc res fs' h
    simp only [save_files_loop] at h
    obtain ⟨hres, hfs⟩ := Prod.mk.inj h
    rw [← hfs]
    exact ⟨Nat.le_refl _,
      ⟨[], by rw [← Except.ok.inj hres]; simp, List.Pairwise.nil, by simp⟩⟩
  | cons f rest ih =>
    intro fs acc res fs' h
    simp only [save_files_loop] at h
    by_cases ht : truthy f.filename = true
    · rw [if_pos ht] at h
      generalize hS : save_file fs f rid = S at h
      obtain ⟨sres, fsS⟩ := S
      cases sres with
      | error e₀ =>
        exfalso
        simp only [] at h
        split at h <;> exact absurd (congrArg Prod.fst h) (by simp)
      | ok p =>
        simp only [] at h
        obtain ⟨hp, hfsS⟩ := save_file_ok_shape hS
        have hctrS : fsS.uuidCtr = fs.uuidCtr + 1 := by rw [hfsS]; simp
        obtain ⟨hle, new', hres, hpw, hmem⟩ := ih fsS (acc ++ [p]) res fs' h
        refine ⟨by omega, p :: new', by rw [hres]; simp, ?_, ?_⟩
        · refine List.Pairwise.cons ?_ hpw
          intro q hq hpq
          obtain ⟨o, n, hn1, hn2, hqe⟩ := hmem q hq
          rw [hp, hqe] at hpq
          have := string_append_cancel_left _ _ _ hpq
          exact generate_unique_filename_inj (by omega) this
        · intro q hq
          rcases List.mem_cons.mp hq with hq0 | hqn
          · exact ⟨f.filename, fs.uuidCtr, Nat.le_refl _, by omega, by rw [hq0, hp]⟩
          · obtain ⟨o, n, hn1, hn2, hqe⟩ := hmem q hqn
            exact ⟨o, n, by omega, hn2, hqe⟩
    · rw [if_neg ht] at h
      exact ih fs acc res fs' h

/-! ### Deletion operations -/

lemma contains_filter_ne_self (l : List String) (d : String) :
    (l.filter (fun x => x != d)).contains d = false := by
  induction l with
  | nil => rfl
  | cons x t ih =>
    by_cases hx : x = d
    · simp [List.filter_cons, hx, ih]
    · simp [List.filter_cons, hx, ih]
      exact fun hd => hx hd.symm

lemma unlink_children_clean :
    ∀ (l : List String) (fs : FS),
      (∀ p ∈ l, fs.unlinkFails.contains p = false) →
      (unlink_children fs l).1 = .ok ()
      ∧ (∀ pb, pb ∈ ((unlink_children fs l).2).files ↔ pb ∈ fs.files ∧ pb.1 ∉ l)
      ∧ ((unlink_children fs l).2).dirs = fs.dirs := by
  intro l
  induction l with
  | nil =>
    intro fs _
    exact ⟨rfl, fun pb => by simp [unlink_children], rfl⟩
  | cons p rest ih =>
    intro fs hf
    simp only [unlink_children]
    unfold FS.unlink
    rw [if_neg (by rw [hf p (List.mem_cons_self p rest)]; exact Bool.false_ne_true)]
    have ihr := ih (fs.removeFile p) (fun q hq => by
      rw [removeFile_unlinkFails]; exact hf q (List.mem_cons_of_mem p hq))
    refine ⟨ihr.1, ?_, by rw [ihr.2.2]; simp⟩
    intro pb
    rw [ihr.2.1 pb, mem_files_removeFile]
    constructor
    · rintro ⟨⟨hin, hne⟩, hrest⟩
      exact ⟨hin, by simp [hne, hrest]⟩
    · rintro ⟨hin, hall⟩
      simp only [List.mem_cons, not_or] at hall
      exact ⟨⟨hin, hall.1⟩, hall.2⟩

lemma mem_filesInDir {fs : FS} {d q : String} :
    q ∈ fs.filesInDir d ↔ (∃ pb ∈ fs.files, pb.1 = q) ∧ isDirectChild d q = true := by
  rw [FS.filesInDir]
  rw [List.mem_filter, List.mem_map]

lemma delete_report_files_removes (fs : FS) (rid : Nat)
    (hdir : fs.dirs.contains (report_dir rid) = true)
    (hfaults : ∀ q ∈ fs.filesInDir (report_dir rid), fs.unlinkFails.contains q = false) :
    (delete_report_files fs rid).dirs.contains (report_dir rid) = false
    ∧ (delete_report_files fs rid).filesInDir (report_dir rid) = [] := by
  have hu := unlink_children_clean (fs.filesInDir (report_dir rid)) fs hfaults
  rw [delete_report_files, delete_report_files_try]
  rw [if_pos hdir]
  generalize hU : unlink_children fs (fs.filesInDir (report_dir rid)) = U at hu
  obtain ⟨ures, fsU⟩ := U
  simp only [] at hu
  cases ures with
  | error e => cases hu.1
  | ok u =>
    simp only []
    constructor
    · exact contains_filter_ne_self _ _
    · rw [List.eq_nil_iff_forall_not_mem]
      intro q hq
      have hq2 : q ∈ fsU.filesInDir (report_dir rid) := hq
      obtain ⟨⟨pb, hpb, hq1⟩, hchild⟩ := mem_filesInDir.mp hq2
      obtain ⟨hin, hnot⟩ := (hu.2.1 pb).mp hpb
      rw [hq1] at hnot
      exact hnot ((@mem_filesInDir fs (report_dir rid) q).mpr
        ⟨⟨pb, hin, hq1⟩, hchild⟩)

lemma delete_report_files_noop (fs : FS) (rid : Nat)
    (hdir : fs.dirs.contains (report_dir rid) = false) :
    delete_report_files fs rid = fs := by
  rw [delete_report_files, delete_report_files_try]
  rw [if_neg (by rw [hdir]; exact Bool.false_ne_true)]

lemma delete_file_fault_noop (fs : FS) (p : String)
    (hfault : fs.unlinkFails.contains p = true) :
    delete_file fs p = fs := by
  rw [delete_file]
  by_cases hex : fs.fileExists p = true
  · rw [if_pos hex]
    unfold FS.unlink
    rw [if_pos hfault]
  · rw [if_neg hex]

/-! ### Evaluation lemmas for the rejection paths of `save_file` -/

lemma save_file_metadata_error {fs : FS} {f : UploadFile} {rid : Nat} {e : PyErr}
    (hval : validate_file f = .error e) :
    save_file fs f rid = (.error e, fs) := by
  rw [save_file, hval]

lemma validate_file_declared_size {f : UploadFile} {s : Nat} (hs : f.size = some s)
    (hbig : s > MAX_FILE_SIZE) :
    validate_file f = .error PyErr.sizeExceeded := by
  rw [validate_file]
  rw [if_pos (by rw [hs]; exact hbig)]

lemma validate_file_bad_ext {f : UploadFile} (hsize : f.size.getD 0 ≤ MAX_FILE_SIZE)
    (hname : truthy f.filename = true)
    (hext : ALLOWED_EXTENSIONS.contains (pyLower (pySuffix (f.filename.getD ""))) = false) :
    validate_file f
      = .error (.unsupportedExtension (pyLower (pySuffix (f.filename.getD "")))) := by
  rw [validate_file]
  rw [if_neg (Nat.not_lt.mpr hsize)]
  rw [if_pos (by rw [hname, hext]; rfl)]

lemma validate_file_bad_mime {f : UploadFile} (hsize : f.size.getD 0 ≤ MAX_FILE_SIZE)
    (hcond : (truthy f.filename
        && !ALLOWED_EXTENSIONS.contains (pyLower (pySuffix (f.filename.getD "")))) = false)
    (hmime : mimeAllowed f.content_type = false) :
    validate_file f = .error (.unsupportedMediaType f.content_type) := by
  rw [validate_file]
  rw [if_neg (Nat.not_lt.mpr hsize)]
  rw [if_neg (by rw [hcond]; exact Bool.false_ne_true)]
  rw [if_pos (by rw [hmime]; rfl)]

lemma validate_file_size_skipped {f : UploadFile} (h : f.size = none) :
    validate_file f ≠ .error PyErr.sizeExceeded := by
  intro hcontra
  rw [validate_file, h] at hcontra
  simp only [Option.getD] at hcontra
  rw [if_neg (by decide)] at hcontra
  split at hcontra <;> simp at hcontra
  split at hcontra <;> simp at hcontra

lemma rolledBack_as_removeFile (fs : FS) (f : UploadFile) (rid : Nat) :
    rolledBack fs f rid = FS.removeFile
      { dirs := (create_report_directory fs rid).dirs, files := fs.files,
        unlinkFails := fs.unlinkFails, openFails := fs.openFails, uuidCtr := fs.uuidCtr + 1 }
      (savedPath fs f rid) := rfl

lemma save_file_actual_size (fs : FS) (f : UploadFile) (rid : Nat)
    (hopen : fs.openFails = []) (hclean : fs.unlinkFails = [])
    (hval : validate_file f = .ok ())
    (hbig : f.content.length > MAX_FILE_SIZE) :
    save_file fs f rid = (.error PyErr.sizeExceeded, rolledBack fs f rid) := by
  simp only [save_file, hval, save_file_try, create_report_directory_uuidCtr,
    create_report_directory_openFails, hopen]
  rw [if_neg (by simp), if_pos hbig]
  simp only [PyErr.isHTTPException, if_true, fileExists_writeFile_self]
  unfold FS.unlink
  rw [if_neg (by simp [hclean])]
  rw [removeFile_writeFile_self]
  simp only [rolledBack_as_removeFile, FS.removeFile, create_report_directory_files,
    create_report_directory_unlinkFails, create_report_directory_openFails, savedPath]
  rw [hclean, hopen]

lemma save_file_content_error (fs : FS) (f : UploadFile) (rid : Nat)
    (hopen : fs.openFails = []) (hclean : fs.unlinkFails = [])
    (hval : validate_file f = .ok ())
    (hsmall : ¬ f.content.length > MAX_FILE_SIZE)
    {e : PyErr} (hhttp : e.isHTTPException = true)
    (htry : validate_file_content_try (savedState fs f rid) (savedPath fs f rid) = .error e) :
    save_file fs f rid = (.error e, rolledBack fs f rid) := by
  have hfold : FS.writeFile
      { dirs := (create_report_directory fs rid).dirs, files := (create_report_directory fs rid).files,
        unlinkFails := (create_report_directory fs rid).unlinkFails,
        openFails := [], uuidCtr := fs.uuidCtr + 1 }
      (report_dir rid ++ "/" ++ generate_unique_filename f.filename fs.uuidCtr) f.content
      = savedState fs f rid := by
    rw [savedState_as_writeFile]
    simp only [create_report_directory_files, create_report_directory_unlinkFails, savedPath]
    rw [hopen]
  have hvc : validate_file_content (savedState fs f rid) (savedPath fs f rid)
      = (.error e, rolledBack fs f rid) := by
    rw [validate_file_content, htry]
    simp only [hhttp, if_true]
    rw [if_pos (by rw [savedState_as_writeFile]; exact fileExists_writeFile_self _ _ _)]
    unfold FS.unlink
    rw [if_neg (by simp [hclean])]
    rw [savedState_as_writeFile, removeFile_writeFile_self, rolledBack_as_removeFile]
  simp only [save_file, hval, save_file_try, create_report_directory_uuidCtr,
    create_report_directory_openFails, hopen]
  rw [if_neg (by simp), if_neg hsmall, writeFile_writeFile_self]
  rw [hfold]
  rw [show (report_dir rid ++ "/" ++ generate_unique_filename f.filename fs.uuidCtr)
      = savedPath fs f rid from rfl]
  rw [hvc]
  simp only [hhttp, if_true]
  have hnotex : ¬ (rolledBack fs f rid).fileExists (savedPath fs f rid) = true := by
    rw [rolledBack_as_removeFile, fileExists_removeFile_self]
    exact Bool.false_ne_true
  rw [if_neg hnotex]

lemma validate_file_content_try_empty {fs : FS} {p : String}
    (hex : fs.fileExists p = true) (hrb : fs.readBytes p = []) :
    validate_file_content_try fs p = .error PyErr.emptyFile := by
  rw [validate_file_content_try]
  rw [if_neg (by rw [hex]; simp), if_pos (by rw [hrb]; rfl)]

lemma validate_file_content_try_badsig {fs : FS} {p : String}
    (hex : fs.fileExists p = true) (hne : (fs.readBytes p).length ≠ 0)
    (hsig : hasImageSig ((fs.readBytes p).take 10) = false) :
    validate_file_content_try fs p = .error PyErr.invalidImageContent := by
  rw [validate_file_content_try]
  rw [if_neg (by rw [hex]; simp), if_neg hne, if_pos (by rw [hsig]; rfl)]

lemma readBytes_savedState_self (fs : FS) (f : UploadFile) (rid : Nat) :
    (savedState fs f rid).readBytes (savedPath fs f rid) = f.content := by
  rw [savedState_as_writeFile]
  exact readBytes_writeFile_self _ _ _

/-! ### Concrete sample data for the witnesses and counterexamples -/

/-- A fresh filesystem: nothing stored, no injected faults. -/
def fsEmpty : FS := ⟨[], [], [], [], 0⟩

/-- A valid JPEG candidate with an uppercase extension. -/
def sampleJpeg : UploadFile := ⟨some "photo.JPG", some "image/jpeg", some 5, [0xff, 0xd8, 0xff, 1, 2]⟩

/-- A valid PNG candidate with no declared size. -/
def samplePng : UploadFile :=
  ⟨some "b.png", some "image/png", none, [0x89, 0x50, 0x4e, 0x47, 0x0d, 0x0a, 0x1a, 0x0a, 9]⟩

/-- A candidate with a disallowed `.gif` extension (valid JPEG bytes). -/
def sampleGif : UploadFile := ⟨some "anim.gif", some "image/jpeg", some 3, [0xff, 0xd8, 0xff]⟩

/-- A candidate with a disallowed declared content-type. -/
def sampleBadMime : UploadFile := ⟨some "a.jpg", some "text/plain", none, [0xff, 0xd8, 0xff]⟩

/-- A candidate whose bytes are plain text. -/
def sampleText : UploadFile := ⟨some "a.jpg", some "image/jpeg", none, [104, 105]⟩

/-- A candidate with zero bytes. -/
def sampleEmpty : UploadFile := ⟨some "a.jpg", some "image/jpeg", none, []⟩

/-- A candidate that declares no filename. -/
def sampleNoName : UploadFile := ⟨none, some "image/jpeg", none, [1]⟩

/-- A candidate whose declared filename is the empty string. -/
def sampleEmptyName : UploadFile := ⟨some "", some "image/png", none, [2]⟩

/-- A candidate whose declared size exceeds the limit. -/
def sampleBigDeclared : UploadFile :=
  ⟨some "a.jpg", some "image/jpeg", some (MAX_FILE_SIZE + 1), [0xff, 0xd8, 0xff]⟩

/-- A candidate whose actual bytes exceed the limit (size attribute absent). -/
def sampleBigActual : UploadFile :=
  ⟨some "a.jpg", some "image/jpeg", none, List.replicate (MAX_FILE_SIZE + 1) 0⟩

/-- A filesystem where unlinking the first name generated for report 7 raises
`OSError`. -/
def fsUnlinkFault : FS :=
  ⟨[], [], ["uploads/waste-reports/7/" ++ uuidStr 0 ++ ".jpg"], [], 0⟩

/-- A filesystem holding two stored photos for report 7. -/
def fsWithReport7 : FS :=
  ⟨["uploads/waste-reports", "uploads/waste-reports/7"],
   [("uploads/waste-reports/7/a.jpg", [1]), ("uploads/waste-reports/7/b.png", [2])],
   [], [], 5⟩

/-- A filesystem where unlinking `a.jpg` raises `OSError`. -/
def fsFault1 : FS := ⟨[], [("a.jpg", [1])], ["a.jpg"], [], 0⟩

/-- A database with one committed report row. -/
def dbOne : DB := ⟨[1], []⟩

/-! ### Claim theorems -/

/-- C3: for every candidate sequence whose length exceeds
`MAX_FILES_PER_REPORT` (10), `save_multiple_files` fails with the
TooManyFiles error before performing any I/O — the returned state is the
input state, so no file is written and the report's directory gains
nothing. -/
theorem oversized_batch_rejected_without_io (fs : FS) (files : List UploadFile) (rid : Nat)
    (h : files.length > MAX_FILES_PER_REPORT) :
    save_multiple_files fs files rid = (.error PyErr.tooManyFiles, fs) := by
  rw [save_multiple_files, if_pos h]

theorem oversized_batch_rejected_without_io_witness :
    (List.replicate 11 sampleNoName).length > MAX_FILES_PER_REPORT
    ∧ save_multiple_files fsEmpty (List.replicate 11 sampleNoName) 1
        = (.error PyErr.tooManyFiles, fsEmpty) :=
  ⟨by decide, oversized_batch_rejected_without_io fsEmpty _ 1 (by decide)⟩

/-- C10: a candidate whose declared filename is absent or empty is silently
skipped by the batch loop — the loop step on it is the identity (no
validation, no write, no reference, no error) — and a batch of at most 10
candidates consisting only of filename-less candidates succeeds with an
empty result and an unchanged filesystem, so a call can return strictly
fewer references than it was given candidates. -/
theorem filenameless_candidates_skipped (fs : FS) (rid : Nat) :
    (∀ (f : UploadFile) (rest : List UploadFile) (acc : List String),
        truthy f.filename = false →
        save_files_loop fs (f :: rest) rid acc = save_files_loop fs rest rid acc)
    ∧ ∀ (files : List UploadFile), files.length ≤ MAX_FILES_PER_REPORT →
        (∀ f ∈ files, truthy f.filename = false) →
        save_multiple_files fs files rid = (.ok [], fs) := by
  constructor
  · intro f rest acc hf
    simp only [save_files_loop]
    rw [if_neg (by rw [hf]; exact Bool.false_ne_true)]
  · intro files hlen hall
    rw [save_multiple_files, if_neg (Nat.not_lt.mpr hlen)]
    have hloop : ∀ (fl : List UploadFile) (fsx : FS) (acc : List String),
        (∀ f ∈ fl, truthy f.filename = false) →
        save_files_loop fsx fl rid acc = (.ok acc, fsx) := by
      intro fl
      induction fl with
      | nil => intro fsx acc _; rfl
      | cons f rest ih =>
        intro fsx acc hall2
        simp only [save_files_loop]
        rw [if_neg (by rw [hall2 f (List.mem_cons_self f rest)]; exact Bool.false_ne_true)]
        exact ih fsx acc (fun g hg => hall2 g (List.mem_cons_of_mem f hg))
    exact hloop files fs [] hall

theorem filenameless_candidates_skipped_witness :
    truthy sampleNoName.filename = false
    ∧ save_multiple_files fsEmpty [sampleNoName, sampleEmptyName] 3 = (.ok [], fsEmpty) :=
  ⟨by decide,
   (filenameless_candidates_skipped fsEmpty 3).2 [sampleNoName, sampleEmptyName]
     (by decide) (by decide)⟩

/-- C1 (counterexample to the claim as stated): in a two-candidate batch
whose first candidate stores successfully and whose second fails validation,
injecting an `OSError` on the stored sibling's path makes the rollback
unlink raise; that deletion error is **not** swallowed — it propagates to
the caller in place of the second candidate's UnsupportedExtension error. -/
theorem sibling_cleanup_error_not_swallowed :
    (save_multiple_files fsUnlinkFault [sampleJpeg, sampleGif] 7).1
      = .error (.osError ("uploads/waste-reports/7/" ++ uuidStr 0 ++ ".jpg"))
    ∧ (save_multiple_files fsUnlinkFault [sampleJpeg, sampleGif] 7).1
      ≠ .error (.unsupportedExtension ".gif") := by
  exact ⟨by decide, by decide⟩

lemma save_files_loop_error_src {rid : Nat} :
    ∀ (files : List UploadFile) (fs : FS) (acc : List String) (e : PyErr) (fs' : FS),
      fs.unlinkFails = [] →
      save_files_loop fs files rid acc = (.error e, fs') →
      ∃ f ∈ files, ∃ (fsk fs₁ : FS),
        truthy f.filename = true ∧ save_file fsk f rid = (.error e, fs₁) := by
  intro files
  induction files with
  | nil =>
    intro fs acc e fs' _ h
    simp only [save_files_loop] at h
    exact absurd (congrArg Prod.fst h) (by simp)
  | cons f rest ih =>
    intro fs acc e fs' hclean h
    simp only [save_files_loop] at h
    by_cases ht : truthy f.filename = true
    · rw [if_pos ht] at h
      generalize hS : save_file fs f rid = S at h
      obtain ⟨sres, fsS⟩ := S
      have hSclean : fsS.unlinkFails = [] := by
        have h1 := (save_file_snd_fields fs f rid).1
        rw [hS] at h1
        simpa [hclean] using h1
      cases sres with
      | ok p =>
        obtain ⟨g, hg, w⟩ := ih fsS (acc ++ [p]) e fs' hSclean h
        exact ⟨g, List.mem_cons_of_mem f hg, w⟩
      | error e₀ =>
        simp only [] at h
        split at h
        · rename_i cu fsC hC
          obtain ⟨he, -⟩ := Prod.mk.inj h
          exact ⟨f, List.mem_cons_self f rest, fs, fsS,
            ht, by rw [hS, Except.error.inj he]⟩
        · rename_i oe fsC hC
          have hc := cleanup_saved_clean hSclean acc
          rw [hC] at hc
          cases hc.1
    · rw [if_neg ht] at h
      obtain ⟨g, hg, w⟩ := ih fs acc e fs' hclean h
      exact ⟨g, List.mem_cons_of_mem f hg, w⟩

/-- C1 (amended): batch processing is sequential and fail-fast — the first
failing candidate's error aborts the loop at once with the state reached so
far — and, **provided no sibling deletion fault occurs** (deletion errors
are not swallowed; see the counterexample), the already-written candidates
of the call are deleted, so a failed batch leaves no file that was not
already present, and the error that propagates is one raised by a
candidate's `save_file`, not by the cleanup. -/
theorem batch_rollback_fail_fast (fs : FS) (files : List UploadFile) (rid : Nat)
    (hclean : fs.unlinkFails = []) :
    (∀ (e : PyErr) (fs' : FS), save_multiple_files fs files rid = (.error e, fs') →
        ∀ pb, pb ∈ fs'.files → pb ∈ fs.files)
    ∧ (∀ (f : UploadFile) (rest : List UploadFile) (e : PyErr) (fs₁ : FS),
        files = f :: rest → ¬ files.length > MAX_FILES_PER_REPORT →
        truthy f.filename = true → save_file fs f rid = (.error e, fs₁) →
        save_multiple_files fs files rid = (.error e, fs₁))
    ∧ (∀ (e : PyErr) (fs' : FS), ¬ files.length > MAX_FILES_PER_REPORT →
        save_multiple_files fs files rid = (.error e, fs') →
        ∃ f ∈ files, ∃ (fsk fs₁ : FS),
          truthy f.filename = true ∧ save_file fsk f rid = (.error e, fs₁)) := by
  refine ⟨?_, ?_, ?_⟩
  · intro e fs' h pb hm
    rw [save_multiple_files] at h
    by_cases hlen : files.length > MAX_FILES_PER_REPORT
    · rw [if_pos hlen] at h
      obtain ⟨-, hfs⟩ := Prod.mk.inj h
      rw [← hfs] at hm
      exact hm
    · rw [if_neg hlen] at h
      exact save_files_loop_error_mem files fs [] e fs' hclean (fun pb hp => Or.inl hp) h pb hm
  · intro f rest e fs₁ hfi hlen ht hsf
    subst hfi
    rw [save_multiple_files, if_neg hlen]
    simp only [save_files_loop]
    rw [if_pos ht, hsf]
    rfl
  · intro e fs' hlen h
    rw [save_multiple_files, if_neg hlen] at h
    exact save_files_loop_error_src files fs [] e fs' hclean h

theorem batch_rollback_fail_fast_witness :
    save_multiple_files fsEmpty [sampleGif] 7
      = (.error (.unsupportedExtension ".gif"), fsEmpty) :=
  (batch_rollback_fail_fast fsEmpty [sampleGif] 7 rfl).2.1 sampleGif []
    (.unsupportedExtension ".gif") fsEmpty rfl (by decide) (by decide) (by decide)

/-- C4: a candidate with a truthy filename and in-limit declared size whose
extension (lowercased) is not allowed fails with UnsupportedExtension, and
one whose extension is allowed but whose declared content-type is not fails
with UnsupportedMediaType; both rejections come from declared metadata
alone and return the filesystem unchanged — no byte of the candidate is
written. -/
theorem metadata_rejection_before_any_write (fs : FS) (f : UploadFile) (rid : Nat)
    (hname : truthy f.filename = true)
    (hsize : f.size.getD 0 ≤ MAX_FILE_SIZE) :
    (ALLOWED_EXTENSIONS.contains (pyLower (pySuffix (f.filename.getD ""))) = false →
        save_file fs f rid
          = (.error (.unsupportedExtension (pyLower (pySuffix (f.filename.getD "")))), fs))
    ∧ (ALLOWED_EXTENSIONS.contains (pyLower (pySuffix (f.filename.getD ""))) = true →
        mimeAllowed f.content_type = false →
        save_file fs f rid = (.error (.unsupportedMediaType f.content_type), fs)) := by
  constructor
  · intro hext
    exact save_file_metadata_error (validate_file_bad_ext hsize hname hext)
  · intro hext hmime
    exact save_file_metadata_error
      (validate_file_bad_mime hsize (by rw [hname, hext]; rfl) hmime)

theorem metadata_rejection_before_any_write_witness :
    save_file fsEmpty sampleGif 7 = (.error (.unsupportedExtension ".gif"), fsEmpty)
    ∧ save_file fsEmpty sampleBadMime 7
        = (.error (.unsupportedMediaType (some "text/plain")), fsEmpty) := by
  constructor
  · have h := (metadata_rejection_before_any_write fsEmpty sampleGif 7
      (by decide) (by decide)).1 (by decide)
    exact h.symm.trans (by decide) |>.symm
  · exact (metadata_rejection_before_any_write fsEmpty sampleBadMime 7
      (by decide) (by decide)).2 (by decide) (by decide)

/-- C5: for a metadata-valid candidate (stated as `validate_file` passing)
within the size limit and no injected faults, empty bytes are rejected
after the write with EmptyFile, and nonempty bytes whose first 10 bytes
carry no JPEG/PNG signature are rejected with InvalidImageContent; in both
cases the end state is `rolledBack` — the just-written file has been
deleted before the error propagates, leaving no entry at the stored path. -/
theorem content_rejection_deletes_file (fs : FS) (f : UploadFile) (rid : Nat)
    (hopen : fs.openFails = []) (hclean : fs.unlinkFails = [])
    (hval : validate_file f = .ok ())
    (hsmall : f.content.length ≤ MAX_FILE_SIZE) :
    (f.content = [] →
        save_file fs f rid = (.error PyErr.emptyFile, rolledBack fs f rid))
    ∧ (f.content ≠ [] → hasImageSig (f.content.take 10) = false →
        save_file fs f rid = (.error PyErr.invalidImageContent, rolledBack fs f rid))
    ∧ (rolledBack fs f rid).fileExists (savedPath fs f rid) = false := by
  have hsm : ¬ f.content.length > MAX_FILE_SIZE := Nat.not_lt.mpr hsmall
  have hex : (savedState fs f rid).fileExists (savedPath fs f rid) = true := by
    rw [savedState_as_writeFile]
    exact fileExists_writeFile_self _ _ _
  have hrb := readBytes_savedState_self fs f rid
  refine ⟨?_, ?_, ?_⟩
  · intro hemp
    exact save_file_content_error fs f rid hopen hclean hval hsm rfl
      (validate_file_content_try_empty hex (by rw [hrb, hemp]))
  · intro hne hsig
    refine save_file_content_error fs f rid hopen hclean hval hsm rfl
      (validate_file_content_try_badsig hex ?_ ?_)
    · rw [hrb]
      intro h0
      exact hne (List.length_eq_zero.mp h0)
    · rw [hrb]
      exact hsig
  · rw [rolledBack_as_removeFile]
    exact fileExists_removeFile_self _ _

theorem content_rejection_deletes_file_witness :
    save_file fsEmpty sampleEmpty 7 = (.error PyErr.emptyFile, rolledBack fsEmpty sampleEmpty 7)
    ∧ save_file fsEmpty sampleText 7
        = (.error PyErr.invalidImageContent, rolledBack fsEmpty sampleText 7) :=
  ⟨(content_rejection_deletes_file fsEmpty sampleEmpty 7 rfl rfl (by decide) (by decide)).1 rfl,
   (content_rejection_deletes_file fsEmpty sampleText 7 rfl rfl (by decide) (by decide)).2.1
     (by decide) (by decide)⟩

/-- C6: the 5 MiB limit is enforced twice — a declared size over the limit
fails pre-write with SizeExceeded and an unchanged filesystem; an absent
size attribute passes the cheap check (the metadata validator cannot raise
SizeExceeded then); and actual bytes over the limit fail post-write with
the same SizeExceeded error, the partially written (empty) file having
been deleted immediately, leaving no entry at the stored path. -/
theorem size_limit_checked_twice (fs : FS) (f : UploadFile) (rid : Nat) :
    (∀ s : Nat, f.size = some s → s > MAX_FILE_SIZE →
        save_file fs f rid = (.error PyErr.sizeExceeded, fs))
    ∧ (f.size = none → validate_file f ≠ .error PyErr.sizeExceeded)
    ∧ (fs.openFails = [] → fs.unlinkFails = [] → validate_file f = .ok () →
        f.content.length > MAX_FILE_SIZE →
        save_file fs f rid = (.error PyErr.sizeExceeded, rolledBack fs f rid)
        ∧ (rolledBack fs f rid).fileExists (savedPath fs f rid) = false) := by
  refine ⟨?_, ?_, ?_⟩
  · intro s hs hbig
    exact save_file_metadata_error (validate_file_declared_size hs hbig)
  · exact validate_file_size_skipped
  · intro hopen hclean hval hbig
    refine ⟨save_file_actual_size fs f rid hopen hclean hval hbig, ?_⟩
    rw [rolledBack_as_removeFile]
    exact fileExists_removeFile_self _ _

theorem size_limit_checked_twice_witness :
    save_file fsEmpty sampleBigDeclared 7 = (.error PyErr.sizeExceeded, fsEmpty)
    ∧ validate_file samplePng ≠ .error PyErr.sizeExceeded
    ∧ save_file fsEmpty sampleBigActual 7
        = (.error PyErr.sizeExceeded, rolledBack fsEmpty sampleBigActual 7) := by
  refine ⟨?_, ?_, ?_⟩
  · exact (size_limit_checked_twice fsEmpty sampleBigDeclared 7).1
      (MAX_FILE_SIZE + 1) rfl (Nat.lt_succ_self _)
  · exact (size_limit_checked_twice fsEmpty samplePng 7).2.1 rfl
  · exact ((size_limit_checked_twice fsEmpty sampleBigActual 7).2.2 rfl rfl
      (validate_file_valid (by decide) (by decide) (by decide) (by decide))
      (by rw [show sampleBigActual.content = List.replicate (MAX_FILE_SIZE + 1) 0 from rfl,
              List.length_replicate]
          exact Nat.lt_succ_self _)).1

/-- C2: a batch of at most 10 candidates, each metadata- and content-valid
(`validCandidate`), stores successfully on a fault-free filesystem:
`save_multiple_files` returns exactly one storage reference per candidate,
each of the form `UPLOAD_DIR/<report-id>/<generated-name>` and each naming
a file, present in the resulting state, whose first bytes carry the JPEG or
PNG signature. -/
theorem valid_batch_stores_all (fs : FS) (files : List UploadFile) (rid : Nat)
    (hlen : files.length ≤ MAX_FILES_PER_REPORT)
    (hvalid : ∀ f ∈ files, validCandidate f)
    (hopen : fs.openFails = []) :
    ∃ paths, (save_multiple_files fs files rid).1 = .ok paths
      ∧ paths.length = files.length
      ∧ ∀ p ∈ paths,
          (∃ name, p = UPLOAD_DIR ++ "/" ++ toString rid ++ "/" ++ name)
          ∧ ((save_multiple_files fs files rid).2).fileExists p = true
          ∧ hasImageSig (((save_multiple_files fs files rid).2).readBytes p) = true := by
  obtain ⟨new, fs', hloop, hl, hmem, -⟩ := save_files_loop_valid files fs [] hvalid hopen
  have heq : save_multiple_files fs files rid = (.ok new, fs') := by
    rw [save_multiple_files, if_neg (Nat.not_lt.mpr hlen), hloop, List.nil_append]
  rw [heq]
  refine ⟨new, rfl, hl, ?_⟩
  intro p hp
  obtain ⟨hshape, hgood⟩ := hmem p hp
  exact ⟨hshape, hgood.1, hgood.2⟩

theorem valid_batch_stores_all_witness :
    ∃ paths, (save_multiple_files fsEmpty [sampleJpeg, samplePng] 7).1 = .ok paths
      ∧ paths.length = [sampleJpeg, samplePng].length
      ∧ ∀ p ∈ paths,
          (∃ name, p = UPLOAD_DIR ++ "/" ++ toString 7 ++ "/" ++ name)
          ∧ ((save_multiple_files fsEmpty [sampleJpeg, samplePng] 7).2).fileExists p = true
          ∧ hasImageSig
              (((save_multiple_files fsEmpty [sampleJpeg, samplePng] 7).2).readBytes p)
              = true :=
  valid_batch_stores_all fsEmpty [sampleJpeg, samplePng] 7 (by decide) (by decide) rfl

/-- C7: every accepted candidate is stored under a freshly drawn unique
identifier concatenated with the original extension lowercased (with the
default base name `unnamed.jpg` substituted for a falsy filename, giving
extension `.jpg`); names drawn at distinct counter values never collide,
and the references produced by two sequential `save_multiple_files` calls
for the same report are pairwise distinct, within and across the calls. -/
theorem generated_names_never_collide :
    (∀ (o : Option String) (n : Nat), truthy o = true →
        generate_unique_filename o n = uuidStr n ++ pyLower (pySuffix (o.getD "")))
    ∧ (∀ (o : Option String) (n : Nat), truthy o = false →
        generate_unique_filename o n = uuidStr n ++ ".jpg")
    ∧ (∀ (o₁ o₂ : Option String) (n₁ n₂ : Nat), n₁ ≠ n₂ →
        generate_unique_filename o₁ n₁ ≠ generate_unique_filename o₂ n₂)
    ∧ (∀ (fs : FS) (files₁ files₂ : List UploadFile) (rid : Nat)
        (ps qs : List String) (fs₁ fs₂ : FS),
        save_multiple_files fs files₁ rid = (.ok ps, fs₁) →
        save_multiple_files fs₁ files₂ rid = (.ok qs, fs₂) →
        ps.Pairwise (fun a b => a ≠ b) ∧ qs.Pairwise (fun a b => a ≠ b)
        ∧ ∀ p ∈ ps, ∀ q ∈ qs, p ≠ q) := by
  refine ⟨?_, ?_, ?_, ?_⟩
  · intro o n ht
    simp [generate_unique_filename, ht]
  · intro o n ht
    simp only [generate_unique_filename, ht, Bool.false_eq_true, if_false]
    rw [show pyLower (pySuffix "unnamed.jpg") = ".jpg" from by decide]
  · intro o₁ o₂ n₁ n₂ hn
    exact generate_unique_filename_inj hn
  · intro fs files₁ files₂ rid ps qs fs₁ fs₂ h1 h2
    rw [save_multiple_files] at h1 h2
    by_cases hl1 : files₁.length > MAX_FILES_PER_REPORT
    · rw [if_pos hl1] at h1
      exact absurd (congrArg Prod.fst h1) (by simp)
    · rw [if_neg hl1] at h1
      by_cases hl2 : files₂.length > MAX_FILES_PER_REPORT
      · rw [if_pos hl2] at h2
        exact absurd (congrArg Prod.fst h2) (by simp)
      · rw [if_neg hl2] at h2
        obtain ⟨hle1, new1, hres1, hpw1, hmem1⟩ :=
          save_files_loop_ok_paths files₁ fs [] ps fs₁ h1
        obtain ⟨hle2, new2, hres2, hpw2, hmem2⟩ :=
          save_files_loop_ok_paths files₂ fs₁ [] qs fs₂ h2
        rw [List.nil_append] at hres1 hres2
        subst hres1
        subst hres2
        refine ⟨hpw1, hpw2, ?_⟩
        intro p hp q hq hpq
        obtain ⟨o, n, hn1, hn2, pe⟩ := hmem1 p hp
        obtain ⟨o', n', hn1', hn2', qe⟩ := hmem2 q hq
        rw [pe, qe] at hpq
        have := string_append_cancel_left _ _ _ hpq
        exact generate_unique_filename_inj (by omega) this

theorem generated_names_never_collide_witness :
    ("uploads/waste-reports/7/" ++ uuidStr 0 ++ ".jpg")
      ≠ ("uploads/waste-reports/7/" ++ uuidStr 1 ++ ".png") := by
  have h := generated_names_never_collide.2.2.2 fsEmpty [sampleJpeg] [samplePng] 7
    ["uploads/waste-reports/7/" ++ uuidStr 0 ++ ".jpg"]
    ["uploads/waste-reports/7/" ++ uuidStr 1 ++ ".png"]
    ⟨["uploads/waste-reports/7"],
     [("uploads/waste-reports/7/" ++ uuidStr 0 ++ ".jpg", [0xff, 0xd8, 0xff, 1, 2])],
     [], [], 1⟩
    ⟨["uploads/waste-reports/7"],
     [("uploads/waste-reports/7/" ++ uuidStr 0 ++ ".jpg", [0xff, 0xd8, 0xff, 1, 2]),
      ("uploads/waste-reports/7/" ++ uuidStr 1 ++ ".png",
        [0x89, 0x50, 0x4e, 0x47, 0x0d, 0x0a, 0x1a, 0x0a, 9])],
     [], [], 2⟩
    (by decide) (by decide)
  exact h.2.2 _ (by decide) _ (by decide)

/-- C8: `delete_report_files` on a report with no directory is an idempotent
no-op; a `delete_file` whose unlink raises has the error swallowed and
returns the state unchanged; `delete_report_files` is by construction the
try-body with any error dropped (never propagated); and when the directory
exists and no unlink fault hits its contents, the directory and every file
in it are removed. -/
theorem delete_ops_swallow_errors (fs : FS) (rid : Nat) (p : String) :
    (fs.dirs.contains (report_dir rid) = false → delete_report_files fs rid = fs)
    ∧ (fs.unlinkFails.contains p = true → delete_file fs p = fs)
    ∧ delete_report_files fs rid = (delete_report_files_try fs rid).2
    ∧ (fs.dirs.contains (report_dir rid) = true →
        (∀ q ∈ fs.filesInDir (report_dir rid), fs.unlinkFails.contains q = false) →
        (delete_report_files fs rid).dirs.contains (report_dir rid) = false
        ∧ (delete_report_files fs rid).filesInDir (report_dir rid) = []) :=
  ⟨delete_report_files_noop fs rid, delete_file_fault_noop fs p, rfl,
   fun h1 h2 => delete_report_files_removes fs rid h1 h2⟩

theorem delete_ops_swallow_errors_witness :
    delete_report_files fsEmpty 3 = fsEmpty
    ∧ delete_file fsFault1 "a.jpg" = fsFault1
    ∧ (delete_report_files fsWithReport7 7).dirs.contains (report_dir 7) = false
    ∧ (delete_report_files fsWithReport7 7).filesInDir (report_dir 7) = [] := by
  have h7 := (delete_ops_swallow_errors fsWithReport7 7 "a.jpg").2.2.2 (by decide) (by decide)
  exact ⟨(delete_ops_swallow_errors fsEmpty 3 "x").1 (by decide),
         (delete_ops_swallow_errors fsFault1 0 "a.jpg").2.1 (by decide),
         h7.1, h7.2⟩

/-- C9: when `save_multiple_files` would fail for the submitted photos, both
report handlers swallow the error at the call site: `create_waste_report`
still returns success with the new report row committed and no photo rows
persisted, and `update_waste_report` (for an existing report) still returns
success with the database unchanged. -/
theorem handlers_swallow_upload_errors (db : DB) (fs : FS) (rid : Nat)
    (photos : List UploadFile) (e : PyErr)
    (herr : (save_multiple_files fs photos rid).1 = .error e) :
    create_waste_report db fs rid photos
      = ((⟨db.reports ++ [rid], db.photos⟩,
          (handle_photo_uploads ⟨db.reports ++ [rid], db.photos⟩ fs photos rid).2), rid)
    ∧ (db.reports.contains rid = true →
        update_waste_report db fs rid photos
          = .ok ((db, (handle_photo_uploads db fs photos rid).2), rid)) := by
  have hgen : ∀ (db' : DB), (handle_photo_uploads db' fs photos rid).1 = db' := by
    intro db'
    rw [handle_photo_uploads]
    by_cases hg : (photos != [] && photos.any (fun p => truthy p.filename)) = true
    · rw [if_pos hg]
      generalize hS : save_multiple_files fs photos rid = S
      obtain ⟨sres, fsS⟩ := S
      rw [hS] at herr
      simp only [] at herr
      cases sres with
      | ok urls => cases herr
      | error e₀ => rfl
    · rw [if_neg hg]
  constructor
  · simp only [create_waste_report]
    rw [show ({ db with reports := db.reports ++ [rid] } : DB)
        = ⟨db.reports ++ [rid], db.photos⟩ from rfl]
    rw [hgen ⟨db.reports ++ [rid], db.photos⟩]
  · intro hmem
    rw [update_waste_report]
    rw [if_neg (by rw [hmem]; simp)]
    simp only []
    rw [hgen db]

theorem handlers_swallow_upload_errors_witness :
    create_waste_report dbOne fsEmpty 1 [sampleGif]
      = ((⟨dbOne.reports ++ [1], dbOne.photos⟩,
          (handle_photo_uploads ⟨dbOne.reports ++ [1], dbOne.photos⟩ fsEmpty [sampleGif] 1).2), 1)
    ∧ update_waste_report dbOne fsEmpty 1 [sampleGif]
        = .ok ((dbOne, (handle_photo_uploads dbOne fsEmpty [sampleGif] 1).2), 1) := by
  have h := handlers_swallow_upload_errors dbOne fsEmpty 1 [sampleGif]
    (.unsupportedExtension ".gif") (by decide)
  exact ⟨h.1, h.2 (by decide)⟩

end WasteUpload
